import Mathlib

/-!
# Chord node: routing state and stabilisation protocol

A shallow embedding of `chord/src/rpcs copy.h`.

* The module-level variables of the source (`self`, `successor`, `predecessor`,
  `finger_table`, `next_finger`, `joined`, `successor_list`) and the two function-local
  `static` counters are gathered in one `State` record that every procedure takes
  and returns.
* Identifiers are natural numbers.  The source compares them as unsigned integers and
  adds only in `finger_start`, where the 64-bit sum of a 32-bit id and `2^i` cannot wrap.
* An outbound RPC is a node of a `Prog` tree: the procedure hands over the request
  and continues with either a reply (`some`) or a failure (`none`, the exception the
  source catches).  `Prog.run` plays a procedure against an `Oracle` that fixes the
  outcome of every call; `Prog.All` speaks about all outcomes at once.
* A procedure runs from start to end on the state it is given.  What an inbound RPC
  does to the variables (a `notify` from another node, or from the node itself) is a
  step of its own.
* A `Net` holds the variables of several nodes.  `Net.serve` carries a lookup from
  node to node, `Net.answers` gives the outcomes a network with reliable delivery
  produces, and `Net.act` lets one node run a procedure inside the network.
-/

namespace Chord

/-! ## Data model -/

/-- Modelled from the spec: the `Node` type is declared in `chord.h`, which is not
among the sources.  The spec gives it as an identifier `id` (32-bit unsigned), a
network address `ip` (the empty string means absent) and a port. -/
structure Node where
  id : Nat
  ip : String
  port : Nat
deriving DecidableEq, Repr, Inhabited

/-- The constant `SUCCESSOR_LIST_SIZE`. -/
def SUCCESSOR_LIST_SIZE : Nat := 5

/-- The type `std::array<Node, 4>` of `finger_table`. -/
abbrev FingerTable := Mathlib.Vector Node 4

instance : Repr FingerTable := ⟨fun ft n => reprPrec ft.toList n⟩

/-- Read `finger_table[i]`.  The source only reads indices below 4; any other index
reads the zero-initialised node here. -/
def FingerTable.entry (ft : FingerTable) (i : Nat) : Node :=
  ft.toList.getD i default

/-- Write `finger_table[i] = v`.  The source only writes indices below 4; any other
index writes nothing here. -/
def FingerTable.put (ft : FingerTable) (i : Nat) (v : Node) : FingerTable :=
  ⟨ft.toList.set i v, by simp⟩

/-- The loop `for (auto& finger : finger_table) finger = v`. -/
def FingerTable.fill (v : Node) : FingerTable :=
  Mathlib.Vector.replicate 4 v

/-- The module-level variables of the source, with the `static` counters
`list_update_count` (of `stabilize`) and `skip_count` (of `fix_fingers`). -/
structure State where
  self : Node
  successor : Node
  predecessor : Node
  finger_table : FingerTable
  next_finger : Nat
  joined : Bool
  successor_list : List Node
  list_update_count : Nat
  skip_count : Nat
deriving DecidableEq, Repr

/-! ## Identifier arithmetic -/

/-- Source lines 21-29: membership of `id` in the arc `(start, end]`. -/
def in_range (id start end_ : Nat) : Bool :=
  if start == end_ then
    true
  else if start < end_ then
    decide (id > start) && decide (id ≤ end_)
  else
    decide (id > start) || decide (id ≤ end_)

/-! ## Outbound RPCs -/

/-- The requests a node sends: the name of the remote handler, the node the
`rpc::client` connects to, and the arguments of the call. -/
inductive Req where
  | get_info (target : Node)
  | get_predecessor (target : Node)
  | get_successor (target : Node)
  | find_successor (target : Node) (id : Nat)
  | notify (target : Node) (n : Node)
deriving DecidableEq, Repr

/-- A procedure that may issue RPCs.  `call r k` sends `r` and continues with `k`
applied to the outcome: `some v` when the call returns `v` (for `notify`, whose
handler returns nothing, any `some` means delivered), `none` when the call throws. -/
inductive Prog (α : Type) where
  | ret : α → Prog α
  | call : Req → (Option Node → Prog α) → Prog α

/-- Sequencing: run `p`, then `f` on its result. -/
def Prog.bind {α β : Type} : Prog α → (α → Prog β) → Prog β
  | .ret a, f => f a
  | .call r k, f => .call r (fun x => (k x).bind f)

/-- The network as seen from one invocation: `o k r` is the outcome of request `r`
when it is the `k`-th RPC (counting from 0) the invocation issues. -/
abbrev Oracle := Nat → Req → Option Node

/-- Run a procedure against the outcomes `o`, `n` calls having been issued before. -/
def Prog.runFrom {α : Type} : Prog α → Oracle → Nat → α
  | .ret a, _, _ => a
  | .call r k, o, n => (k (o n r)).runFrom o (n + 1)

/-- Run a procedure from its first call. -/
def Prog.run {α : Type} (p : Prog α) (o : Oracle) : α :=
  p.runFrom o 0

/-- The number of RPCs a run issues. -/
def Prog.callsFrom {α : Type} : Prog α → Oracle → Nat → Nat
  | .ret _, _, _ => 0
  | .call r k, o, n => (k (o n r)).callsFrom o (n + 1) + 1

/-- The predicate `P` holds of the result whatever the outcomes of the RPCs are. -/
def Prog.All {α : Type} (P : α → Prop) : Prog α → Prop
  | .ret a => P a
  | .call _ k => ∀ x, (k x).All P

/-! ## Handlers without outbound calls -/

/-- Source lines 33-43. -/
def create (s : State) : State :=
  { s with
    predecessor := { s.predecessor with ip := "" }
    successor := s.self
    successor_list := [s.self]
    finger_table := FingerTable.fill s.self
    joined := true }

/-- Source lines 45-47. -/
def get_predecessor (s : State) : Node := s.predecessor

/-- Source lines 49-51. -/
def get_successor (s : State) : Node := s.successor

/-- The test of the loop body of `closest_preceding_node` (lines 55-64) on the
finger `f`. -/
def precedes (s : State) (id : Nat) (f : Node) : Bool :=
  f.ip != "" && f.id != s.self.id &&
    (if s.self.id < id then
      decide (f.id > s.self.id) && decide (f.id < id)
    else
      decide (f.id > s.self.id) || decide (f.id < id))

/-- The loop of lines 54-66 with `n` entries left to visit: it looks at
`finger_table[n - 1]`, then at the entries below. -/
def closest_preceding_scan (s : State) (id : Nat) : Nat → Node
  | 0 => s.self
  | i + 1 =>
    if precedes s id (s.finger_table.entry i) then s.finger_table.entry i
    else closest_preceding_scan s id i

/-- Source lines 53-68. -/
def closest_preceding_node (s : State) (id : Nat) : Node :=
  closest_preceding_scan s id 4

/-- Source lines 70-94. -/
def find_successor (s : State) (id : Nat) : Prog Node :=
  if s.successor.id == s.self.id then
    .ret s.self
  else if s.predecessor.ip != "" && in_range id s.predecessor.id s.self.id then
    .ret s.self
  else if in_range id s.self.id s.successor.id then
    .ret s.successor
  else
    let n := closest_preceding_node s id
    if n.id == s.self.id then
      .ret s.successor
    else
      .call (.find_successor n id) fun
        | some r => .ret r
        | none => .ret s.successor

/-- Source lines 96-101. -/
def notify (s : State) (n : Node) : State :=
  if s.predecessor.ip == "" || in_range n.id s.predecessor.id s.self.id then
    { s with predecessor := n }
  else
    s

/-! ## Successor list -/

/-- The loop of lines 109-114 (and of lines 239-244 in `join`) with `n` iterations
left: `current` is the node asked next, `acc` the list built so far.  A failed call
leaves the loop through the `catch` of line 115, a reply whose id is that of
`successor` or of `self` through the `break`. -/
def successor_chain (s : State) : Nat → Node → List Node → Prog (List Node)
  | 0, _, acc => .ret acc
  | n + 1, current, acc =>
    .call (.get_successor current) fun
      | none => .ret acc
      | some c =>
        if c.id == s.successor.id || c.id == s.self.id then .ret acc
        else successor_chain s n c (acc ++ [c])

/-- Source lines 103-118. -/
def update_successor_list (s : State) : Prog State :=
  (successor_chain s (SUCCESSOR_LIST_SIZE - 1) s.successor [s.successor]).bind fun l =>
    .ret { s with successor_list := l }

/-! ## Stabilizer -/

/-- Lines 169-173 and 187-191: promote `c` to successor, mirror it into
`finger_table[0]`, rebuild the successor list. -/
def promote (s : State) (c : Node) : Prog State :=
  update_successor_list { s with successor := c, finger_table := s.finger_table.put 0 c }

/-- Lines 198-204: become a solo ring. -/
def become_solo (s : State) : State :=
  { s with
    successor := s.self
    successor_list := [s.self]
    finger_table := FingerTable.fill s.self }

/-- The loop of lines 180-196 over the fingers still to visit, followed by lines
198-204 when no finger answers. -/
def recover_from_fingers (s : State) : List Node → Prog State
  | [] => .ret (become_solo s)
  | finger :: rest =>
    if finger.ip != "" && finger.id != s.self.id && finger.id != s.successor.id then
      .call (.get_info finger) fun
        | some _ => promote s finger
        | none => recover_from_fingers s rest
    else
      recover_from_fingers s rest

/-- The loop of lines 165-177 over the candidates `successor_list[i]`, `i ≥ 1`, still
to visit, followed by the finger-table loop when none answers. -/
def recover_from_list (s : State) : List Node → Prog State
  | [] => recover_from_fingers s s.finger_table.toList
  | c :: rest =>
    .call (.get_info c) fun
      | some _ => promote s c
      | none => recover_from_list s rest

/-- The handler of lines 161-206, entered in state `s`. -/
def recover (s : State) : Prog State :=
  recover_from_list s (s.successor_list.drop 1)

/-- Lines 132-146: what `stabilize` does with the reply `x` of `get_predecessor`. -/
def adopt (s : State) (x : Node) : Prog State :=
  if x.ip != "" && x.id != s.self.id then
    let should_update :=
      if s.successor.id == s.self.id then true
      else if in_range x.id s.self.id s.successor.id then true
      else false
    if should_update then
      update_successor_list { s with successor := x, finger_table := s.finger_table.put 0 x }
    else
      .ret s
  else
    .ret s

/-- Lines 155-159: the refresh of the successor list on every third pass. -/
def periodic_refresh (s : State) : Prog State :=
  if s.list_update_count + 1 ≥ 3 then
    update_successor_list { s with list_update_count := 0 }
  else
    .ret { s with list_update_count := s.list_update_count + 1 }

/-- Source lines 120-207. -/
def stabilize (s : State) : Prog State :=
  if !s.joined then .ret s
  else
    .call (.get_predecessor s.successor) fun
      | none => recover s
      | some x =>
        (adopt s x).bind fun s1 =>
          .call (.notify s1.successor s1.self) fun
            | none => recover s1
            | some _ => periodic_refresh s1

/-! ## Join -/

/-- The target of finger `i`, lines 225 and 276: `(self.id + 2^i) mod (2^32 - 1)`.
The sum is formed in 64 bits, where it cannot wrap for a 32-bit `self.id` and
`i < 32`. -/
def finger_start (s : State) (i : Nat) : Nat :=
  (s.self.id + 2 ^ i) % (2 ^ 32 - 1)

/-- The loop of lines 224-232 over the indices still to fill. -/
def join_fingers (s : State) (n : Node) : List Nat → Prog State
  | [] => .ret s
  | i :: rest =>
    .call (.find_successor n (finger_start s i)) fun
      | some r => join_fingers { s with finger_table := s.finger_table.put i r } n rest
      | none => join_fingers { s with finger_table := s.finger_table.put i s.successor } n rest

/-- Source lines 209-266. -/
def join (s : State) (n : Node) : Prog State :=
  let s0 := { s with predecessor := { s.predecessor with ip := "" }, joined := false }
  .call (.find_successor n s0.self.id) fun
    | none => .ret { become_solo s0 with joined := true }
    | some succ =>
      let s1 := { s0 with successor := succ, finger_table := s0.finger_table.put 0 succ }
      (join_fingers s1 n [1, 2, 3]).bind fun s2 =>
        (update_successor_list s2).bind fun s3 =>
          let s4 := { s3 with joined := true }
          .call (.notify s4.successor s4.self) fun _ => .ret s4

/-! ## Finger fixer -/

/-- The loop of lines 280-286 with `n` entries left to visit; `current` when no
entry qualifies. -/
def dispatch_scan (s : State) (start : Nat) (current : Node) : Nat → Node
  | 0 => current
  | i + 1 =>
    if (s.finger_table.entry i).ip != "" &&
        in_range (s.finger_table.entry i).id s.self.id start then
      s.finger_table.entry i
    else dispatch_scan s start current i

/-- Source lines 268-300. -/
def fix_fingers (s : State) : Prog State :=
  if !s.joined || s.successor.id == s.self.id then .ret s
  else if s.skip_count + 1 < 3 then .ret { s with skip_count := s.skip_count + 1 }
  else
    let s := { s with skip_count := 0 }
    let start := finger_start s s.next_finger
    let current := dispatch_scan s start s.successor 4
    .call (.find_successor current start) fun
      | some new_finger =>
        let ft :=
          if (s.finger_table.entry s.next_finger).id != new_finger.id then
            s.finger_table.put s.next_finger new_finger
          else s.finger_table
        .ret { s with finger_table := ft, next_finger := (s.next_finger + 1) % 4 }
      | none =>
        .ret { s with
          finger_table := s.finger_table.put s.next_finger s.successor
          next_finger := (s.next_finger + 1) % 4 }

/-! ## Predecessor monitor -/

/-- Source lines 302-312. -/
def check_predecessor (s : State) : Prog State :=
  if !s.joined || s.predecessor.ip == "" then .ret s
  else
    .call (.get_info s.predecessor) fun
      | some _ => .ret s
      | none => .ret { s with predecessor := { s.predecessor with ip := "" } }

/-! ## The lookup as the spec words it -/

/-- Equality of NodeRefs as the spec defines it: by `id`. -/
def Node.same (a b : Node) : Bool := a.id == b.id

/-- A NodeRef is present when its `ip` is not the empty string. -/
def Node.present (a : Node) : Bool := a.ip != ""

/-- The five steps of the spec's `find_successor`, in the spec's order. -/
def find_successor_steps (s : State) (id : Nat) : Prog Node :=
  if s.successor.same s.self then
    .ret s.self
  else if s.predecessor.present && in_range id s.predecessor.id s.self.id then
    .ret s.self
  else if in_range id s.self.id s.successor.id then
    .ret s.successor
  else if (closest_preceding_node s id).same s.self then
    .ret s.successor
  else
    .call (.find_successor (closest_preceding_node s id) id) fun reply =>
      .ret (reply.getD s.successor)

/-! ## Concrete nodes and states -/

/-- Node 3 of the examples. -/
def node3 : Node := ⟨3, "10.0.0.3", 5000⟩

/-- Node 10 of the spec's scenarios. -/
def node10 : Node := ⟨10, "10.0.0.10", 5000⟩

/-- Node 20 of the spec's scenarios. -/
def node20 : Node := ⟨20, "10.0.0.20", 5000⟩

/-- Node 30 of the spec's scenarios. -/
def node30 : Node := ⟨30, "10.0.0.30", 5000⟩

/-- The variables of a process that has only set `self`: every other `Node` is
zero-initialised, `joined` is false, the list is empty. -/
def fresh (self : Node) : State :=
  { self := self
    successor := default
    predecessor := default
    finger_table := FingerTable.fill default
    next_finger := 0
    joined := false
    successor_list := []
    list_update_count := 0
    skip_count := 0 }

/-- A network in which every call is answered by `node3` (a solo ring of node 3:
it is the successor of every identifier and its own successor). -/
def solo3 : Oracle := fun _ _ => some node3

/-- Node 10 after `join(node3)` into the solo ring of node 3: successor and fingers
are node 3, and no `notify` has reached node 10 yet, so its predecessor is absent. -/
def joined10 : State :=
  { self := node10
    successor := node3
    predecessor := default
    finger_table := FingerTable.fill node3
    next_finger := 0
    joined := true
    successor_list := [node3]
    list_update_count := 0
    skip_count := 0 }

/-! ## Invariants and reachable states -/

/-- The state `t` is `s` with its successor list replaced by `successor` followed by
at most four further nodes. -/
def Rebuilt (s t : State) : Prop :=
  ∃ ext : List Node, t = { s with successor_list := s.successor :: ext } ∧ ext.length ≤ 4

/-- Ring invariant 4 of the spec: `finger_table[0] == successor`. -/
def FingerZero (s : State) : Prop :=
  s.finger_table.entry 0 = s.successor

/-- The shape of the successor list: between 1 and `SUCCESSOR_LIST_SIZE` entries, the
first of which is `successor`. -/
def ListShape (s : State) : Prop :=
  1 ≤ s.successor_list.length ∧ s.successor_list.length ≤ SUCCESSOR_LIST_SIZE ∧
    s.successor_list.head? = some s.successor

instance : DecidablePred FingerZero := fun s =>
  inferInstanceAs (Decidable (s.finger_table.entry 0 = s.successor))

instance : DecidablePred ListShape := fun s =>
  inferInstanceAs (Decidable (1 ≤ s.successor_list.length ∧
    s.successor_list.length ≤ SUCCESSOR_LIST_SIZE ∧
    s.successor_list.head? = some s.successor))

/-- The states a node can be in: those `create` or `join` produce from any variables,
and those an operation produces from such a state, under any outcomes of its RPCs. -/
inductive Reachable : State → Prop where
  | create (s : State) : Reachable (create s)
  | join (s : State) (n : Node) (o : Oracle) : Reachable ((join s n).run o)
  | notify {s : State} (n : Node) : Reachable s → Reachable (notify s n)
  | stabilize {s : State} (o : Oracle) : Reachable s → Reachable ((stabilize s).run o)
  | fix_fingers {s : State} (o : Oracle) : Reachable s → Reachable ((fix_fingers s).run o)
  | check_predecessor {s : State} (o : Oracle) :
      Reachable s → Reachable ((check_predecessor s).run o)

/-- Node 10 in the ring {10, 20, 30}: successor 20, predecessor 30, successor list
`[20, 30]`, fingers 20 and 30.  `skip_count` is 2, so the next `fix_fingers` is the
third of its round, and the cursor `next_finger` is 0. -/
def ring10 : State :=
  { self := node10
    successor := node20
    predecessor := node30
    finger_table := ⟨[node20, node20, node20, node30], rfl⟩
    next_finger := 0
    joined := true
    successor_list := [node20, node30]
    list_update_count := 0
    skip_count := 2 }

/-- Every call is answered by `node30`. -/
def answer30 : Oracle := fun _ _ => some node30

/-- The ring {10, 20, 30} with node 20 dead: calls to node 20 fail, node 30 answers
`get_info` with itself, `get_successor` with node 10 and `get_predecessor` with
node 20, and accepts `notify`. -/
def dead20 : Oracle := fun _ r =>
  match r with
  | .get_info t => if t.id == 30 then some node30 else none
  | .get_successor t => if t.id == 30 then some node10 else none
  | .get_predecessor t => if t.id == 30 then some node20 else none
  | .find_successor t _ => if t.id == 30 then some node10 else none
  | .notify t _ => if t.id == 30 then some node30 else none

/-- A network in which no call is answered. -/
def unreachable : Oracle := fun _ _ => none

/-- Node 20 in the ring {10, 20, 30} after its predecessor was cleared: successor 30,
fingers 30 and 10. -/
def ring20 : State :=
  { self := node20
    successor := node30
    predecessor := { node10 with ip := "" }
    finger_table := ⟨[node30, node30, node30, node10], rfl⟩
    next_finger := 0
    joined := true
    successor_list := [node30, node10]
    list_update_count := 0
    skip_count := 0 }

/-- Node 5 of the ring {5, 4294967294, 4294967295}. -/
def node5 : Node := ⟨5, "10.0.0.5", 5000⟩

/-- Node `2^32 - 2`. -/
def nodeY : Node := ⟨4294967294, "10.0.0.94", 5000⟩

/-- Node `2^32 - 1`. -/
def nodeZ : Node := ⟨4294967295, "10.0.0.95", 5000⟩

/-- Node `2^32 - 2` in the ring {5, 2^32 - 2, 2^32 - 1}: successor `2^32 - 1`,
predecessor 5, `finger_table[0] = successor`, the cursor at 0 and `skip_count` at 2. -/
def ringY : State :=
  { self := nodeY
    successor := nodeZ
    predecessor := node5
    finger_table := ⟨[nodeZ, node5, node5, nodeY], rfl⟩
    next_finger := 0
    joined := true
    successor_list := [nodeZ, node5]
    list_update_count := 0
    skip_count := 2 }

/-- Node `2^32 - 1` in the same ring: successor 5, predecessor `2^32 - 2`. -/
def ringZ : State :=
  { self := nodeZ
    successor := node5
    predecessor := nodeY
    finger_table := ⟨[node5, node5, node5, nodeY], rfl⟩
    next_finger := 0
    joined := true
    successor_list := [node5, nodeY]
    list_update_count := 0
    skip_count := 0 }

/-- Every call is answered by `node5`. -/
def answer5 : Oracle := fun _ _ => some node5

/-! ## The successor list as the spec words it -/

/-- The chain of `get_successor` replies of the spec's rebuild, `n` calls being left
and `j` calls made: the reply of `current`, then the reply of that node, and so on,
cut at the first call that fails or whose reply carries the id of `successor` or of
`self`. -/
def reply_chain (s : State) (o : Oracle) : Nat → Nat → Node → List Node
  | 0, _, _ => []
  | n + 1, j, current =>
    match o j (.get_successor current) with
    | none => []
    | some r =>
      if r.id = s.successor.id ∨ r.id = s.self.id then []
      else r :: reply_chain s o n (j + 1) r

/-- The nodes of a network, each with its variables. -/
abbrev Net := List State

/-- The node an RPC to `target` reaches: the one whose `self` is `target`. -/
def Net.node (net : Net) (target : Node) : Option State :=
  net.find? fun M => M.self == target

/-- A lookup carried across the network: every `find_successor` request is answered
by the target running its own `find_successor`, whose requests are carried in turn.
A request to a node that is not in the network fails.  The first argument bounds the
depth of forwarding; `none` means the bound was reached before the lookup returned. -/
def Net.serve (net : Net) : Nat → Prog Node → Option Node
  | 0, p =>
    match p with
    | .ret r => some r
    | .call _ _ => none
  | fuel + 1, p =>
    match p with
    | .ret r => some r
    | .call (.find_successor target id) k =>
      match net.node target with
      | none => net.serve fuel (k none)
      | some M =>
        match net.serve fuel (find_successor M id) with
        | none => none
        | some r => net.serve fuel (k (some r))
    | .call _ k => net.serve fuel (k none)

/-- The identifier `x` lies strictly between `a` and `b` on the ring, going up from
`a`: the arithmetic of lines 56-64. -/
def between (a b x : Nat) : Bool :=
  if a < b then decide (x > a) && decide (x < b)
  else decide (x > a) || decide (x < b)

/-- A ring of live nodes: every node is present, ids are pairwise distinct, the
successor of a node is the member next after it (no member lies strictly between
them) and its predecessor the member next before it, `finger_table[0]` is the
successor, and every finger is a member. -/
def RingOK (ring : Net) : Prop :=
  (∀ M ∈ ring, M.self.ip ≠ "") ∧
  (ring.map fun M => M.self.id).Nodup ∧
  (∀ M ∈ ring, ∃ S ∈ ring, M.successor = S.self ∧
    ∀ X ∈ ring, between M.self.id S.self.id X.self.id = false) ∧
  (∀ M ∈ ring, ∃ P ∈ ring, M.predecessor = P.self ∧
    ∀ X ∈ ring, between P.self.id M.self.id X.self.id = false) ∧
  (∀ M ∈ ring, FingerZero M) ∧
  (∀ M ∈ ring, ∀ i, i < 4 → ∃ F ∈ ring, M.finger_table.entry i = F.self)

instance (ring : Net) : Decidable (RingOK ring) := by
  unfold RingOK
  infer_instance

/-- Node 20 of the ring {10, 20, 30}: successor 30, predecessor 10. -/
def member20 : State :=
  { self := node20
    successor := node30
    predecessor := node10
    finger_table := ⟨[node30, node30, node30, node30], rfl⟩
    next_finger := 0
    joined := true
    successor_list := [node30, node10]
    list_update_count := 0
    skip_count := 0 }

/-- Node 30 of the ring {10, 20, 30}: successor 10, predecessor 20; its last finger
is node 20. -/
def member30 : State :=
  { self := node30
    successor := node10
    predecessor := node20
    finger_table := ⟨[node10, node10, node10, node20], rfl⟩
    next_finger := 0
    joined := true
    successor_list := [node10, node20]
    list_update_count := 0
    skip_count := 0 }

/-- The ring {10, 20, 30} of the spec's scenarios. -/
def ring123 : Net := [ring10, member20, member30]

/-! ## Procedures run inside a network -/

/-- The requests a run issues, in order. -/
def Prog.traceFrom {α : Type} : Prog α → Oracle → Nat → List Req
  | .ret _, _, _ => []
  | .call r k, o, n => r :: (k (o n r)).traceFrom o (n + 1)

/-- The outcomes a network with reliable delivery gives: a request to a node of the
network is answered by the handler of that node (`get_info`, `get_predecessor`,
`get_successor` of lines 31-51, a lookup carried across the network for
`find_successor`, an acknowledgement for `notify`); a request to any other address
fails. -/
def Net.answers (net : Net) : Oracle := fun _ r =>
  match r with
  | .get_info t => (net.node t).map fun M => M.self
  | .get_predecessor t => (net.node t).map get_predecessor
  | .get_successor t => (net.node t).map get_successor
  | .find_successor t id =>
    (net.node t).bind fun M => net.serve net.length (find_successor M id)
  | .notify t _ => (net.node t).map fun M => M.self

/-- Replace the variables of the node `t.self` by `t`. -/
def Net.store (net : Net) (t : State) : Net :=
  net.map fun M => if M.self == t.self then t else M

/-- Run the `notify` handler of the target of every `notify` request in the list. -/
def Net.deliver (net : Net) : List Req → Net
  | [] => net
  | r :: rest =>
    match r with
    | .notify t n => Net.deliver (net.map fun M => if M.self == t then notify M n else M) rest
    | _ => Net.deliver net rest

/-- Node `me` runs the procedure `proc` from start to end.  Its calls are answered
from the variables the nodes have when the procedure starts, its own variables are
replaced by the result, and the `notify` requests it sent are then handled by their
targets.  (Within `join` and `stabilize` nothing a `notify` changes is read after
it is sent.) -/
def Net.act (net : Net) (me : Node) (proc : State → Prog State) : Net :=
  match net.node me with
  | none => net
  | some s =>
    (net.store ((proc s).run net.answers)).deliver ((proc s).traceFrom net.answers 0)

/-- Two processes that have only set `self`. -/
def two_nodes (A B : Node) : Net := [fresh A, fresh B]

/-- Node `A` runs `create`, then node `B` runs `join(A)`. -/
def create_then_join (A B : Node) : Net :=
  ((two_nodes A B).act A fun s => .ret (create s)).act B fun s => join s A

/-- A sequence of `stabilize` calls: `true` is a call on `A`, `false` a call on `B`. -/
def stabilize_rounds (A B : Node) : List Bool → Net → Net
  | [], net => net
  | true :: rest, net => stabilize_rounds A B rest (net.act A stabilize)
  | false :: rest, net => stabilize_rounds A B rest (net.act B stabilize)

/-- Node `A` after `create` and the `notify` of `B`: its own successor, predecessor
`B`. -/
def founder (A B : Node) : State :=
  { create (fresh A) with predecessor := B }

/-- Node `B` after `join(A)`: successor and fingers `A`, predecessor absent; `c` is
its `list_update_count`. -/
def joiner (A B : Node) (c : Nat) : State :=
  { fresh B with
    successor := A
    finger_table := FingerTable.fill A
    joined := true
    successor_list := [A]
    list_update_count := c }

/-- Node `A` once it has adopted `B`: successor `B`, `finger_table[0] = B`,
predecessor `B`. -/
def founder_settled (A B : Node) (c : Nat) : State :=
  { founder A B with
    successor := B
    finger_table := (FingerTable.fill A).put 0 B
    successor_list := [B]
    list_update_count := c }

/-- Node `B` once `A` has notified it: successor `A`, predecessor `A`. -/
def joiner_settled (A B : Node) (c : Nat) : State :=
  { joiner A B c with predecessor := A }

/-! ## Theorems -/

/-- C1: `in_range id start end` is true when `start = end`, is `start < id ∧ id ≤ end`
when `start < end`, and is `id > start ∨ id ≤ end` when `start > end`; in particular
`in_range id s s` is true for all `s` and `id`. -/
theorem in_range_cases (id start end_ : Nat) :
    (start = end_ → in_range id start end_ = true) ∧
    (start < end_ → (in_range id start end_ = true ↔ (start < id ∧ id ≤ end_))) ∧
    (end_ < start → (in_range id start end_ = true ↔ (id > start ∨ id ≤ end_))) ∧
    in_range id start start = true := by
  refine ⟨?_, ?_, ?_, ?_⟩
  · intro h
    simp [in_range, h]
  · intro h
    have hne : start ≠ end_ := Nat.ne_of_lt h
    simp [in_range, hne, h]
  · intro h
    have hne : start ≠ end_ := Nat.ne_of_gt h
    have hnl : ¬ start < end_ := Nat.not_lt.mpr (Nat.le_of_lt h)
    simp [in_range, hne, hnl]
  · simp [in_range]

/-- Witness of C1 at the arcs `(3, 3]`, `(3, 7]` and `(7, 3]`. -/
theorem in_range_cases_witness :
    in_range 9 3 3 = true ∧ (in_range 5 3 7 = true ↔ (3 < 5 ∧ 5 ≤ 7)) ∧
      (in_range 1 7 3 = true ↔ (1 > 7 ∨ 1 ≤ 3)) :=
  ⟨(in_range_cases 9 3 3).1 rfl, (in_range_cases 5 3 7).2.1 (by decide),
    (in_range_cases 1 7 3).2.2.1 (by decide)⟩

/-! ### Lookup -/

/-- C2: `find_successor` is the five-step reference of the spec, step for step; it
issues at most one RPC and returns a node whatever the outcome; on a solo ring, as
right after `create`, it returns `self` without any RPC. -/
theorem find_successor_eq_steps (s : State) (id : Nat) :
    find_successor s id = find_successor_steps s id ∧
    (∀ o : Oracle, (find_successor s id).callsFrom o 0 ≤ 1) ∧
    find_successor (create s) id = Prog.ret s.self := by
  refine ⟨?_, ?_, ?_⟩
  · unfold find_successor find_successor_steps Node.same Node.present
    by_cases h1 : s.successor.id = s.self.id
    · simp [h1]
    · by_cases h2 : (s.predecessor.ip != "" && in_range id s.predecessor.id s.self.id) = true
      · simp [h1, h2]
      · by_cases h3 : in_range id s.self.id s.successor.id = true
        · simp [h1, h2, h3]
        · by_cases h4 : (closest_preceding_node s id).id = s.self.id
          · simp [h1, h2, h3, h4]
          · simp only [beq_iff_eq, h1, h2, h3, h4, if_false, Bool.false_eq_true]
            congr 1
            funext reply
            cases reply <;> rfl
  · intro o
    unfold find_successor
    split
    · simp [Prog.callsFrom]
    · split
      · simp [Prog.callsFrom]
      · split
        · simp [Prog.callsFrom]
        · simp only []
          split
          · simp [Prog.callsFrom]
          · simp only [Prog.callsFrom]
            cases o 0 (Req.find_successor (closest_preceding_node s id) id) <;>
              simp [Prog.callsFrom]
  · simp [find_successor, create]

/-- Counterexample to C3 as stated: node 10 with successor 3 and an absent
predecessor whose stale id is 0.  Identifier 2 lies in `(0, 10]`, yet the lookup
answers with the successor, node 3. -/
theorem find_successor_absent_predecessor :
    (join (fresh node10) node3).run solo3 = joined10 ∧
    in_range 2 joined10.predecessor.id joined10.self.id = true ∧
    find_successor joined10 2 = Prog.ret node3 ∧
    node3 ≠ joined10.self :=
  ⟨by decide, by decide, rfl, by decide⟩

/-- C3 (amended): when the predecessor is present, or the node is its own successor,
and `k` lies in `(predecessor.id, self.id]`, the lookup of `k` returns `self`
without any RPC. -/
theorem find_successor_own_arc (N : State) (k : Nat)
    (hp : N.predecessor.ip ≠ "" ∨ N.successor.id = N.self.id)
    (hk : in_range k N.predecessor.id N.self.id = true) :
    find_successor N k = Prog.ret N.self := by
  unfold find_successor
  by_cases h1 : N.successor.id = N.self.id
  · simp [h1]
  · have hp2 : N.predecessor.ip ≠ "" := by
      cases hp with
      | inl h => exact h
      | inr h => exact absurd h h1
    simp [h1, hp2, hk]

/-- Witness of C3 (amended): node 10 with predecessor 3 looks up 5. -/
theorem find_successor_own_arc_witness :
    find_successor (notify joined10 node3) 5 = Prog.ret node10 :=
  find_successor_own_arc (notify joined10 node3) 5 (Or.inl (by decide)) (by decide)

/-! ### Create and notify -/

/-- C4: after `create` the predecessor has an empty ip, the successor is `self`, the
successor list is `[self]`, the four fingers are `self`, `joined` is true; `self` and
`next_finger` are as before. -/
theorem create_solo_state (s : State) :
    (create s).predecessor.ip = "" ∧
    (create s).successor = s.self ∧
    (create s).successor_list = [s.self] ∧
    (create s).finger_table.toList = [s.self, s.self, s.self, s.self] ∧
    (create s).joined = true ∧
    (create s).self = s.self ∧
    (create s).next_finger = s.next_finger := by
  refine ⟨rfl, rfl, rfl, rfl, rfl, rfl, rfl⟩

/-- C5: `notify n` makes `n` the predecessor when the predecessor is absent or `n.id`
is in `(predecessor.id, self.id]`, keeps the predecessor otherwise, and changes no
other field. -/
theorem notify_effect (s : State) (n : Node) :
    (notify s n).predecessor =
      (if s.predecessor.ip = "" ∨ in_range n.id s.predecessor.id s.self.id = true
        then n else s.predecessor) ∧
    (notify s n).self = s.self ∧
    (notify s n).successor = s.successor ∧
    (notify s n).successor_list = s.successor_list ∧
    (notify s n).finger_table = s.finger_table ∧
    (notify s n).next_finger = s.next_finger ∧
    (notify s n).joined = s.joined := by
  unfold notify
  by_cases h : s.predecessor.ip = "" ∨ in_range n.id s.predecessor.id s.self.id = true
  · have h2 : (s.predecessor.ip == "" || in_range n.id s.predecessor.id s.self.id) = true := by
      simpa using h
    simp [h, h2]
  · have h2 : ¬ (s.predecessor.ip == "" || in_range n.id s.predecessor.id s.self.id) = true := by
      simpa using h
    simp [h, h2]

/-! ### Reasoning about procedures -/

theorem Prog.All.mono {α : Type} {P Q : α → Prop} (h : ∀ a, P a → Q a) :
    ∀ p : Prog α, p.All P → p.All Q
  | .ret a, hp => h a hp
  | .call _ k, hp => fun x => Prog.All.mono h (k x) (hp x)

theorem Prog.All.bind {α β : Type} {Q : β → Prop} (f : α → Prog β) :
    ∀ p : Prog α, p.All (fun a => (f a).All Q) → (p.bind f).All Q
  | .ret _, hp => hp
  | .call _ k, hp => fun x => Prog.All.bind f (k x) (hp x)

theorem Prog.All.runFrom {α : Type} {P : α → Prop} (o : Oracle) :
    ∀ (p : Prog α) (n : Nat), p.All P → P (p.runFrom o n)
  | .ret _, _, hp => hp
  | .call r k, n, hp => Prog.All.runFrom o (k (o n r)) (n + 1) (hp (o n r))

theorem Prog.runFrom_bind {α β : Type} (f : α → Prog β) (o : Oracle) :
    ∀ (p : Prog α) (n : Nat),
      (p.bind f).runFrom o n = (f (p.runFrom o n)).runFrom o (n + p.callsFrom o n)
  | .ret _, _ => rfl
  | .call r k, n => by
    simp only [Prog.bind, Prog.runFrom, Prog.callsFrom]
    rw [Prog.runFrom_bind f o (k (o n r)) (n + 1)]
    congr 1
    omega

theorem FingerTable.entry_put_zero (ft : FingerTable) (v : Node) :
    (ft.put 0 v).entry 0 = v := by
  obtain ⟨l, hl⟩ := ft
  match l, hl with
  | a :: rest, _ => rfl

theorem FingerTable.entry_put_ne (ft : FingerTable) (i j : Nat) (v : Node) (h : i ≠ j) :
    (ft.put i v).entry j = ft.entry j := by
  obtain ⟨l, hl⟩ := ft
  simp [FingerTable.put, FingerTable.entry, Mathlib.Vector.toList, List.getD_eq_getElem?_getD,
    List.getElem?_set, h]

theorem FingerTable.entry_fill (v : Node) (i : Nat) (h : i < 4) :
    (FingerTable.fill v).entry i = v := by
  interval_cases i <;> rfl

/-! ### Successor list rebuild -/

/-- The rebuilt list is the initial list followed by at most `n` further nodes, none
of which carries the id of `successor` or of `self`. -/
theorem successor_chain_post (s : State) :
    ∀ (n : Nat) (current : Node) (acc : List Node),
      (successor_chain s n current acc).All fun l =>
        ∃ ext : List Node, l = acc ++ ext ∧ ext.length ≤ n ∧
          ∀ x ∈ ext, x.id ≠ s.successor.id ∧ x.id ≠ s.self.id
  | 0, _, acc => ⟨[], by simp⟩
  | n + 1, current, acc => by
    intro reply
    cases reply with
    | none => exact ⟨[], by simp⟩
    | some c =>
      by_cases hc : (c.id == s.successor.id || c.id == s.self.id) = true
      · simp only [hc, if_true]
        exact ⟨[], by simp⟩
      · simp only [hc, if_false, Bool.false_eq_true]
        refine Prog.All.mono ?_ _ (successor_chain_post s n c (acc ++ [c]))
        rintro l ⟨ext, rfl, hlen, hall⟩
        refine ⟨c :: ext, by simp, by simpa using hlen, ?_⟩
        intro x hx
        rcases List.mem_cons.mp hx with rfl | hx
        · simpa using hc
        · exact hall x hx

theorem update_successor_list_post (s : State) : (update_successor_list s).All (Rebuilt s) := by
  unfold update_successor_list
  apply Prog.All.bind
  refine Prog.All.mono ?_ _ (successor_chain_post s _ _ _)
  rintro l ⟨ext, rfl, hlen, -⟩
  exact ⟨ext, rfl, hlen⟩

theorem Prog.All.ite {α : Type} {P : α → Prop} {c : Prop} [Decidable c] {a b : Prog α}
    (ha : c → a.All P) (hb : ¬ c → b.All P) : (if c then a else b).All P := by
  split
  · exact ha ‹_›
  · exact hb ‹_›

theorem Rebuilt.listShape {s t : State} (h : Rebuilt s t) : ListShape t := by
  obtain ⟨ext, rfl, hlen⟩ := h
  refine ⟨by simp, ?_, rfl⟩
  simp only [List.length_cons, SUCCESSOR_LIST_SIZE]
  omega

theorem Rebuilt.fingerZero {s t : State} (h : Rebuilt s t) (hs : FingerZero s) :
    FingerZero t := by
  obtain ⟨ext, rfl, -⟩ := h
  exact hs

theorem become_solo_good (s : State) :
    FingerZero (become_solo s) ∧ ListShape (become_solo s) :=
  ⟨rfl, by simp [ListShape, become_solo, SUCCESSOR_LIST_SIZE]⟩

theorem promote_post (s : State) (c : Node) :
    (promote s c).All
      (Rebuilt { s with successor := c, finger_table := s.finger_table.put 0 c }) :=
  update_successor_list_post _

theorem promote_good (s : State) (c : Node) :
    (promote s c).All fun t => FingerZero t ∧ ListShape t := by
  refine Prog.All.mono ?_ _ (promote_post s c)
  intro t h
  exact ⟨h.fingerZero (FingerTable.entry_put_zero _ _), h.listShape⟩

theorem recover_from_fingers_good (s : State) :
    ∀ fs : List Node, (recover_from_fingers s fs).All fun t => FingerZero t ∧ ListShape t
  | [] => become_solo_good s
  | finger :: rest => by
    unfold recover_from_fingers
    split
    · intro reply
      cases reply with
      | none => exact recover_from_fingers_good s rest
      | some _ => exact promote_good s finger
    · exact recover_from_fingers_good s rest

theorem recover_from_list_good (s : State) :
    ∀ cs : List Node, (recover_from_list s cs).All fun t => FingerZero t ∧ ListShape t
  | [] => recover_from_fingers_good s _
  | c :: rest => by
    intro reply
    cases reply with
    | none => exact recover_from_list_good s rest
    | some _ => exact promote_good s c

theorem recover_good (s : State) : (recover s).All fun t => FingerZero t ∧ ListShape t :=
  recover_from_list_good s _

theorem adopt_keeps (s : State) (x : Node) :
    (adopt s x).All fun t => (FingerZero s → FingerZero t) ∧ (ListShape s → ListShape t) := by
  unfold adopt
  refine Prog.All.ite (fun _ => ?_) (fun _ => ⟨id, id⟩)
  refine Prog.All.ite (fun _ => ?_) (fun _ => ⟨id, id⟩)
  refine Prog.All.mono ?_ _ (update_successor_list_post _)
  intro t h
  exact ⟨fun _ => h.fingerZero (FingerTable.entry_put_zero _ _), fun _ => h.listShape⟩

theorem periodic_refresh_keeps (s : State) :
    (periodic_refresh s).All fun t =>
      (FingerZero s → FingerZero t) ∧ (ListShape s → ListShape t) := by
  unfold periodic_refresh
  split
  · refine Prog.All.mono ?_ _ (update_successor_list_post _)
    intro t h
    exact ⟨fun hs => h.fingerZero hs, fun _ => h.listShape⟩
  · exact ⟨id, id⟩

theorem stabilize_keeps (s : State) :
    (stabilize s).All fun t => (FingerZero s → FingerZero t) ∧ (ListShape s → ListShape t) := by
  unfold stabilize
  split
  · exact ⟨id, id⟩
  · intro reply
    cases reply with
    | none =>
      exact Prog.All.mono (fun t h => ⟨fun _ => h.1, fun _ => h.2⟩) _ (recover_good s)
    | some x =>
      apply Prog.All.bind
      refine Prog.All.mono ?_ _ (adopt_keeps s x)
      intro s1 h1 reply
      cases reply with
      | none =>
        exact Prog.All.mono (fun t h => ⟨fun _ => h.1, fun _ => h.2⟩) _ (recover_good s1)
      | some _ =>
        refine Prog.All.mono ?_ _ (periodic_refresh_keeps s1)
        intro t h
        exact ⟨fun hs => h.1 (h1.1 hs), fun hs => h.2 (h1.2 hs)⟩

theorem join_fingers_frame :
    ∀ (is : List Nat) (s : State) (n : Node), 0 ∉ is →
      (join_fingers s n is).All fun t =>
        t.successor = s.successor ∧ t.finger_table.entry 0 = s.finger_table.entry 0
  | [], _, _, _ => ⟨rfl, rfl⟩
  | i :: rest, s, n, h => by
    have hi : i ≠ 0 := fun h0 => h (by simp [h0])
    have hrest : 0 ∉ rest := fun h0 => h (List.mem_cons_of_mem _ h0)
    intro reply
    cases reply with
    | none =>
      refine Prog.All.mono ?_ _ (join_fingers_frame rest _ n hrest)
      rintro t ⟨h1, h2⟩
      exact ⟨h1, h2.trans (FingerTable.entry_put_ne _ _ _ _ hi)⟩
    | some r =>
      refine Prog.All.mono ?_ _ (join_fingers_frame rest _ n hrest)
      rintro t ⟨h1, h2⟩
      exact ⟨h1, h2.trans (FingerTable.entry_put_ne _ _ _ _ hi)⟩

theorem join_good (s : State) (n : Node) :
    (join s n).All fun t => FingerZero t ∧ ListShape t := by
  intro reply
  cases reply with
  | none => exact ⟨rfl, by simp [ListShape, become_solo, SUCCESSOR_LIST_SIZE]⟩
  | some succ =>
    apply Prog.All.bind
    refine Prog.All.mono ?_ _ (join_fingers_frame [1, 2, 3] _ n (by decide))
    rintro s2 ⟨h1, h2⟩
    apply Prog.All.bind
    refine Prog.All.mono ?_ _ (update_successor_list_post s2)
    intro s3 h3 _
    have hz : FingerZero s2 := by
      unfold FingerZero
      rw [h2, h1]
      exact FingerTable.entry_put_zero _ _
    obtain ⟨hl1, hl2, hl3⟩ := h3.listShape
    exact ⟨h3.fingerZero hz, hl1, hl2, hl3⟩

theorem fix_fingers_frame (s : State) :
    (fix_fingers s).All fun t =>
      t.successor = s.successor ∧ t.successor_list = s.successor_list := by
  unfold fix_fingers
  refine Prog.All.ite (fun _ => ⟨rfl, rfl⟩) (fun _ => ?_)
  refine Prog.All.ite (fun _ => ⟨rfl, rfl⟩) (fun _ => ?_)
  intro reply
  cases reply with
  | none => exact ⟨rfl, rfl⟩
  | some _ => exact ⟨rfl, rfl⟩

theorem check_predecessor_frame (s : State) :
    (check_predecessor s).All fun t =>
      t.successor = s.successor ∧ t.successor_list = s.successor_list ∧
        t.finger_table = s.finger_table := by
  unfold check_predecessor
  refine Prog.All.ite (fun _ => ⟨rfl, rfl, rfl⟩) (fun _ => ?_)
  intro reply
  cases reply with
  | none => exact ⟨rfl, rfl, rfl⟩
  | some _ => exact ⟨rfl, rfl, rfl⟩

theorem notify_frame (s : State) (n : Node) :
    (notify s n).successor = s.successor ∧ (notify s n).successor_list = s.successor_list ∧
      (notify s n).finger_table = s.finger_table := by
  unfold notify
  split <;> exact ⟨rfl, rfl, rfl⟩

theorem create_good (s : State) : FingerZero (create s) ∧ ListShape (create s) :=
  ⟨rfl, by simp [ListShape, create, SUCCESSOR_LIST_SIZE]⟩

/-! ### Invariants -/

/-- C7: in every state reachable from `create` or `join` through `notify`,
`stabilize`, `fix_fingers`, `check_predecessor`, `join` and `create` under any RPC
outcomes, the successor list has between 1 and 5 entries and its first entry is
`successor`. -/
theorem successor_list_shape (s : State) (h : Reachable s) :
    1 ≤ s.successor_list.length ∧ s.successor_list.length ≤ 5 ∧
      s.successor_list.head? = some s.successor := by
  have key : ListShape s := by
    induction h with
    | create s => exact (create_good s).2
    | join s n o => exact (Prog.All.runFrom o _ 0 (join_good s n)).2
    | @notify s n _ ih =>
      obtain ⟨h1, h2, -⟩ := notify_frame s n
      unfold ListShape
      rw [h1, h2]
      exact ih
    | @stabilize s o _ ih => exact (Prog.All.runFrom o _ 0 (stabilize_keeps s)).2 ih
    | @fix_fingers s o _ ih =>
      obtain ⟨h1, h2⟩ := Prog.All.runFrom o _ 0 (fix_fingers_frame s)
      unfold ListShape Prog.run
      rw [h1, h2]
      exact ih
    | @check_predecessor s o _ ih =>
      obtain ⟨h1, h2, -⟩ := Prog.All.runFrom o _ 0 (check_predecessor_frame s)
      unfold ListShape Prog.run
      rw [h1, h2]
      exact ih
  exact key

/-- Witness of C7: node 10 after `create`, a `notify` from node 20 and a `stabilize`
in which every call fails. -/
theorem successor_list_shape_witness :
    1 ≤ ((stabilize (notify (create (fresh node10)) node20)).run fun _ _ => none).successor_list.length ∧
    ((stabilize (notify (create (fresh node10)) node20)).run fun _ _ => none).successor_list.length ≤ 5 ∧
    ((stabilize (notify (create (fresh node10)) node20)).run fun _ _ => none).successor_list.head? =
      some ((stabilize (notify (create (fresh node10)) node20)).run fun _ _ => none).successor :=
  successor_list_shape _
    (Reachable.stabilize _ (Reachable.notify node20 (Reachable.create (fresh node10))))

/-- C6, the defect: on node 10 of the ring {10, 20, 30}, with the invariant
`finger_table[0] = successor` in force, the third `fix_fingers` call refreshes entry 0
(the cursor is 0) with the reply to `find_successor(11)`, which it sends to node 20.
Node 30 is the answer node 20 gives by line 92 when its own forwarded call fails.
With that reply entry 0 becomes node 30 while `successor` stays node 20. -/
theorem fix_fingers_overwrites_finger_zero :
    FingerZero ring10 ∧
    dispatch_scan ring10 (finger_start ring10 0) ring10.successor 4 = node20 ∧
    (find_successor ring20 11).run unreachable = node30 ∧
    ((fix_fingers ring10).run answer30).finger_table.entry 0 = node30 ∧
    ((fix_fingers ring10).run answer30).successor = node20 ∧
    ¬ FingerZero ((fix_fingers ring10).run answer30) := by
  decide

/-- The same defect without any failed call: in the ring {5, 2^32 - 2, 2^32 - 1} the
target of finger 0 of node `2^32 - 2` is `(2^32 - 2 + 1) mod (2^32 - 1) = 0`, node
`2^32 - 1` answers the lookup of 0 with node 5 without forwarding, and entry 0 becomes
node 5 while `successor` stays node `2^32 - 1`. -/
theorem fix_fingers_wraps_past_successor :
    FingerZero ringY ∧
    finger_start ringY 0 = 0 ∧
    dispatch_scan ringY 0 ringY.successor 4 = nodeZ ∧
    find_successor ringZ 0 = Prog.ret node5 ∧
    ((fix_fingers ringY).run answer5).finger_table.entry 0 = node5 ∧
    ((fix_fingers ringY).run answer5).successor = nodeZ ∧
    ¬ FingerZero ((fix_fingers ringY).run answer5) :=
  ⟨by decide, by decide, by decide, rfl, by decide, by decide, by decide⟩

/-- The invariant of C6 on every other path: `create` and `join` establish
`finger_table[0] = successor`; `notify`, `stabilize` and `check_predecessor` keep it;
`fix_fingers` keeps it when its cursor is not 0. -/
theorem finger_zero_elsewhere (s : State) (n : Node) (o : Oracle) :
    FingerZero (create s) ∧
    FingerZero ((join s n).run o) ∧
    (FingerZero s → FingerZero (notify s n)) ∧
    (FingerZero s → FingerZero ((stabilize s).run o)) ∧
    (FingerZero s → FingerZero ((check_predecessor s).run o)) ∧
    (FingerZero s → s.next_finger ≠ 0 → FingerZero ((fix_fingers s).run o)) := by
  refine ⟨(create_good s).1, (Prog.All.runFrom o _ 0 (join_good s n)).1, ?_, ?_, ?_, ?_⟩
  · intro h
    obtain ⟨h1, -, h3⟩ := notify_frame s n
    unfold FingerZero
    rw [h1, h3]
    exact h
  · exact (Prog.All.runFrom o _ 0 (stabilize_keeps s)).1
  · intro h
    obtain ⟨h1, -, h3⟩ := Prog.All.runFrom o _ 0 (check_predecessor_frame s)
    unfold FingerZero Prog.run
    rw [h1, h3]
    exact h
  · intro h hne
    have key : (fix_fingers s).All FingerZero := by
      unfold fix_fingers
      refine Prog.All.ite (fun _ => h) (fun _ => ?_)
      refine Prog.All.ite (fun _ => h) (fun _ => ?_)
      intro reply
      cases reply with
      | none => exact (FingerTable.entry_put_ne _ _ _ _ hne).trans h
      | some r =>
        dsimp only [Prog.All, FingerZero]
        split
        · exact (FingerTable.entry_put_ne _ _ _ _ hne).trans h
        · exact h
    exact Prog.All.runFrom o _ 0 key

/-! ### Recovery -/

theorem Prog.runFrom_call {α : Type} (r : Req) (k : Option Node → Prog α) (o : Oracle)
    (n : Nat) : (Prog.call r k).runFrom o n = (k (o n r)).runFrom o (n + 1) :=
  rfl

theorem stabilize_get_predecessor_fails (s : State) (o : Oracle) (hj : s.joined = true)
    (hfail : o 0 (.get_predecessor s.successor) = none) :
    (stabilize s).run o = (recover_from_list s (s.successor_list.drop 1)).runFrom o 1 := by
  unfold stabilize Prog.run
  rw [if_neg (by simp [hj]), Prog.runFrom_call, hfail]
  rfl

theorem recover_from_fingers_unreachable (s : State) (o : Oracle) (h : ∀ k r, o k r = none) :
    ∀ (fs : List Node) (n : Nat), (recover_from_fingers s fs).runFrom o n = become_solo s
  | [], _ => rfl
  | finger :: rest, n => by
    unfold recover_from_fingers
    split
    · rw [Prog.runFrom_call, h]
      exact recover_from_fingers_unreachable s o h rest (n + 1)
    · exact recover_from_fingers_unreachable s o h rest n

theorem recover_from_list_unreachable (s : State) (o : Oracle) (h : ∀ k r, o k r = none) :
    ∀ (cs : List Node) (n : Nat), (recover_from_list s cs).runFrom o n = become_solo s
  | [], n => recover_from_fingers_unreachable s o h _ n
  | c :: rest, n => by
    unfold recover_from_list
    rw [Prog.runFrom_call, h]
    exact recover_from_list_unreachable s o h rest (n + 1)

/-- C8: when every RPC a joined node issues during `stabilize` fails, the node ends in
the solo-ring state: successor `self`, successor list `[self]`, four fingers `self`,
still joined; predecessor and `next_finger` are as before. -/
theorem stabilize_total_isolation (s : State) (o : Oracle)
    (hj : s.joined = true) (h : ∀ k r, o k r = none) :
    ((stabilize s).run o).successor = s.self ∧
    ((stabilize s).run o).successor_list = [s.self] ∧
    ((stabilize s).run o).finger_table.toList = [s.self, s.self, s.self, s.self] ∧
    ((stabilize s).run o).joined = true ∧
    ((stabilize s).run o).predecessor = s.predecessor ∧
    ((stabilize s).run o).next_finger = s.next_finger := by
  have key : (stabilize s).run o = become_solo s := by
    rw [stabilize_get_predecessor_fails s o hj (h _ _)]
    exact recover_from_list_unreachable s o h _ 1
  rw [key]
  exact ⟨rfl, rfl, rfl, hj, rfl, rfl⟩

/-- Witness of C8 (scenario S5 on node 10 of the ring {10, 20, 30}). -/
theorem stabilize_total_isolation_witness :
    ((stabilize ring10).run unreachable).successor = node10 ∧
    ((stabilize ring10).run unreachable).successor_list = [node10] ∧
    ((stabilize ring10).run unreachable).finger_table.toList =
      [node10, node10, node10, node10] ∧
    ((stabilize ring10).run unreachable).joined = true ∧
    ((stabilize ring10).run unreachable).predecessor = node30 ∧
    ((stabilize ring10).run unreachable).next_finger = 0 :=
  stabilize_total_isolation ring10 unreachable rfl (fun _ _ => rfl)

theorem recover_from_list_first_answer (s : State) (o : Oracle) :
    ∀ (cs : List Node) (n m : Nat) (c r : Node),
      cs[m]? = some c → o (n + m) (.get_info c) = some r →
      (∀ j d, j < m → cs[j]? = some d → o (n + j) (.get_info d) = none) →
      (recover_from_list s cs).runFrom o n = (promote s c).runFrom o (n + m + 1)
  | [], _, m, _, _, hc, _, _ => by simp at hc
  | a :: rest, n, 0, c, r, hc, hr, _ => by
    have hac : a = c := by simpa using hc
    subst hac
    unfold recover_from_list
    rw [Nat.add_zero] at hr
    rw [Prog.runFrom_call, hr]
  | a :: rest, n, m + 1, c, r, hc, hr, hl => by
    have ha : o n (.get_info a) = none := by
      have := hl 0 a (Nat.succ_pos m) (by simp)
      simpa using this
    unfold recover_from_list
    rw [Prog.runFrom_call, ha]
    have hc2 : rest[m]? = some c := by simpa using hc
    have hr2 : o (n + 1 + m) (.get_info c) = some r := by
      rw [← hr]; congr 1; omega
    have hl2 : ∀ j d, j < m → rest[j]? = some d → o (n + 1 + j) (.get_info d) = none := by
      intro j d hj hd
      have := hl (j + 1) d (Nat.succ_lt_succ hj) (by simpa using hd)
      rw [← this]; congr 1; omega
    rw [show n + (m + 1) + 1 = n + 1 + m + 1 by omega]
    exact recover_from_list_first_answer s o rest (n + 1) m c r hc2 hr2 hl2

/-- C9: on a joined node whose `get_predecessor` call (RPC 0) fails, let `i ≥ 1` be
the least index whose entry `c = successor_list[i]` answers its `get_info` probe (the
probe of entry `j` is RPC `j`).  After `stabilize` the successor is `c`,
`finger_table[0]` is `c` and the rebuilt successor list starts with `c`, whatever the
later calls return. -/
theorem stabilize_promotes_first_live (s : State) (o : Oracle) (i : Nat) (c r : Node)
    (hj : s.joined = true)
    (hfail : o 0 (.get_predecessor s.successor) = none)
    (hi : 1 ≤ i) (hc : s.successor_list[i]? = some c)
    (hans : o i (.get_info c) = some r)
    (hleast : ∀ j d, 1 ≤ j → j < i → s.successor_list[j]? = some d →
      o j (.get_info d) = none) :
    ((stabilize s).run o).successor = c ∧
    ((stabilize s).run o).finger_table.entry 0 = c ∧
    ((stabilize s).run o).successor_list.head? = some c := by
  obtain ⟨m, rfl⟩ : ∃ m, i = m + 1 := ⟨i - 1, by omega⟩
  have key : (stabilize s).run o = (promote s c).runFrom o (1 + m + 1) := by
    rw [stabilize_get_predecessor_fails s o hj hfail]
    refine recover_from_list_first_answer s o _ 1 m c r ?_ ?_ ?_
    · simpa [List.getElem?_drop, Nat.add_comm] using hc
    · rw [← hans]; congr 1; omega
    · intro j d hjm hd
      have := hleast (j + 1) d (by omega) (by omega)
        (by simpa [List.getElem?_drop, Nat.add_comm] using hd)
      rw [← this]; congr 1; omega
  rw [key]
  obtain ⟨ext, ht, -⟩ := Prog.All.runFrom o _ (1 + m + 1) (promote_post s c)
  rw [ht]
  exact ⟨rfl, FingerTable.entry_put_zero _ _, rfl⟩

/-- Witness of C9 (scenario S4): node 10 of the ring {10, 20, 30} with list
`[20, 30]` and node 20 dead ends with successor 30. -/
theorem stabilize_promotes_first_live_witness :
    ((stabilize ring10).run dead20).successor = node30 ∧
    ((stabilize ring10).run dead20).finger_table.entry 0 = node30 ∧
    ((stabilize ring10).run dead20).successor_list.head? = some node30 :=
  stabilize_promotes_first_live ring10 dead20 1 node30 node30 rfl rfl (by decide) rfl rfl
    (fun j _ h1 h2 _ => absurd h1 (by omega))

/-! ### Predecessor monitor -/

/-- C10: on a joined node with a present predecessor, `check_predecessor` empties the
predecessor's ip when the `get_info` probe fails and returns the state untouched when
it is answered; the other fields are as before in both cases. -/
theorem check_predecessor_effect (s : State) (o : Oracle)
    (hj : s.joined = true) (hp : s.predecessor.ip ≠ "") :
    (o 0 (.get_info s.predecessor) = none →
      ((check_predecessor s).run o).predecessor.ip = "") ∧
    ((o 0 (.get_info s.predecessor)).isSome = true → (check_predecessor s).run o = s) ∧
    ((check_predecessor s).run o).successor = s.successor ∧
    ((check_predecessor s).run o).successor_list = s.successor_list ∧
    ((check_predecessor s).run o).finger_table = s.finger_table ∧
    ((check_predecessor s).run o).next_finger = s.next_finger ∧
    ((check_predecessor s).run o).joined = s.joined ∧
    ((check_predecessor s).run o).self = s.self := by
  have hrun : (check_predecessor s).run o =
      match o 0 (.get_info s.predecessor) with
      | some _ => s
      | none => { s with predecessor := { s.predecessor with ip := "" } } := by
    unfold check_predecessor Prog.run
    rw [if_neg (by simp [hj, hp]), Prog.runFrom_call]
    cases o 0 (.get_info s.predecessor) <;> rfl
  rw [hrun]
  cases o 0 (.get_info s.predecessor) <;> simp

/-- Witness of C10 (scenario S6): node 10 with predecessor 30, node 30 unreachable. -/
theorem check_predecessor_effect_witness :
    ((check_predecessor ring10).run unreachable).predecessor.ip = "" ∧
    (check_predecessor ring10).run answer30 = ring10 ∧
    ((check_predecessor ring10).run unreachable).successor = node20 :=
  ⟨(check_predecessor_effect ring10 unreachable rfl (by decide)).1 rfl,
    (check_predecessor_effect ring10 answer30 rfl (by decide)).2.1 rfl,
    (check_predecessor_effect ring10 unreachable rfl (by decide)).2.2.1⟩

/-! ### Unjoined node, failed join, arcs -/

/-- C11: on a node that is not joined, `stabilize`, `fix_fingers` and
`check_predecessor` return the state as it is, counters included, without any RPC. -/
theorem unjoined_is_idle (s : State) (hj : s.joined = false) :
    stabilize s = Prog.ret s ∧ fix_fingers s = Prog.ret s ∧
      check_predecessor s = Prog.ret s := by
  refine ⟨?_, ?_, ?_⟩
  · simp [stabilize, hj]
  · simp [fix_fingers, hj]
  · simp [check_predecessor, hj]

/-- Witness of C11: a process that has not joined yet. -/
theorem unjoined_is_idle_witness :
    stabilize (fresh node10) = Prog.ret (fresh node10) ∧
      fix_fingers (fresh node10) = Prog.ret (fresh node10) ∧
      check_predecessor (fresh node10) = Prog.ret (fresh node10) :=
  unjoined_is_idle (fresh node10) rfl

/-- C12: when the first `find_successor(self.id)` call of `join n` fails, `join`
returns, and the state it returns is the one `create` produces from the same prior
state. -/
theorem join_failure_is_create (s : State) (n : Node) (o : Oracle)
    (hfail : o 0 (.find_successor n s.self.id) = none) :
    (join s n).run o = create s ∧
    ((join s n).run o).predecessor.ip = "" ∧
    ((join s n).run o).successor = s.self ∧
    ((join s n).run o).successor_list = [s.self] ∧
    ((join s n).run o).finger_table.toList = [s.self, s.self, s.self, s.self] ∧
    ((join s n).run o).joined = true := by
  have key : (join s n).run o = create s := by
    unfold join Prog.run
    simp only []
    rw [Prog.runFrom_call, hfail]
    rfl
  rw [key]
  exact ⟨rfl, rfl, rfl, rfl, rfl, rfl⟩

/-- Witness of C12: node 10 joins through node 20 while nothing answers. -/
theorem join_failure_is_create_witness :
    (join ring10 node20).run unreachable = create ring10 ∧
    ((join ring10 node20).run unreachable).predecessor.ip = "" ∧
    ((join ring10 node20).run unreachable).successor = node10 ∧
    ((join ring10 node20).run unreachable).successor_list = [node10] ∧
    ((join ring10 node20).run unreachable).finger_table.toList =
      [node10, node10, node10, node10] ∧
    ((join ring10 node20).run unreachable).joined = true :=
  join_failure_is_create ring10 node20 unreachable rfl

/-- C20: for `start ≠ end`, an identifier lies in exactly one of the arcs
`(start, end]` and `(end, start]`. -/
theorem in_range_partition (id start end_ : Nat) (h : start ≠ end_) :
    (in_range id start end_ = true ∨ in_range id end_ start = true) ∧
    ¬ (in_range id start end_ = true ∧ in_range id end_ start = true) := by
  have h2 : end_ ≠ start := fun e => h e.symm
  rcases Nat.lt_or_gt_of_ne h with hlt | hgt
  · have hn : ¬ end_ < start := by omega
    simp only [in_range, beq_iff_eq, h, h2, hlt, hn, if_true, if_false, Bool.and_eq_true,
      Bool.or_eq_true, decide_eq_true_eq]
    omega
  · have hn : ¬ start < end_ := by omega
    simp only [in_range, beq_iff_eq, h, h2, hgt, hn, if_true, if_false, Bool.and_eq_true,
      Bool.or_eq_true, decide_eq_true_eq]
    omega

/-- Witness of C20: identifier 5 and the arcs `(10, 20]` and `(20, 10]`. -/
theorem in_range_partition_witness :
    (in_range 5 10 20 = true ∨ in_range 5 20 10 = true) ∧
    ¬ (in_range 5 10 20 = true ∧ in_range 5 20 10 = true) :=
  in_range_partition 5 10 20 (by decide)

/-! ### Closest preceding node -/

/-- The test of `closest_preceding_node` in the terms of `in_range`: the finger is
present, is not `self`, and its id is in `(self.id, id]` without being `id`. -/
theorem precedes_iff (s : State) (id : Nat) (f : Node) :
    precedes s id f = true ↔
      f.ip ≠ "" ∧ f.id ≠ s.self.id ∧ in_range f.id s.self.id id = true ∧ f.id ≠ id := by
  unfold precedes in_range
  by_cases hip : f.ip = ""
  · simp [hip]
  · by_cases h1 : s.self.id = id
    · subst h1
      simp [hip]
      omega
    · by_cases h2 : s.self.id < id
      · simp [hip, h1, h2]
        omega
      · simp [hip, h1, h2]
        omega

/-- The scan of the `n` lowest entries either finds no qualifying entry and yields
`self`, or yields the qualifying entry of highest index. -/
theorem closest_preceding_scan_spec (s : State) (id : Nat) :
    ∀ n : Nat,
      (closest_preceding_scan s id n = s.self ∧
        ∀ i, i < n → precedes s id (s.finger_table.entry i) = false) ∨
      ∃ i, i < n ∧ closest_preceding_scan s id n = s.finger_table.entry i ∧
        precedes s id (s.finger_table.entry i) = true ∧
        ∀ j, i < j → j < n → precedes s id (s.finger_table.entry j) = false
  | 0 => Or.inl ⟨rfl, fun i hi => absurd hi (Nat.not_lt_zero i)⟩
  | n + 1 => by
    unfold closest_preceding_scan
    by_cases h : precedes s id (s.finger_table.entry n) = true
    · rw [if_pos h]
      exact Or.inr ⟨n, Nat.lt_succ_self n, rfl, h, fun j h1 h2 => by omega⟩
    · rw [if_neg h]
      have hf : precedes s id (s.finger_table.entry n) = false := by simpa using h
      rcases closest_preceding_scan_spec s id n with ⟨h1, h2⟩ | ⟨i, hi, h1, h2, h3⟩
      · refine Or.inl ⟨h1, fun i hi => ?_⟩
        rcases Nat.lt_succ_iff_lt_or_eq.mp hi with hlt | rfl
        · exact h2 i hlt
        · exact hf
      · refine Or.inr ⟨i, Nat.lt_succ_of_lt hi, h1, h2, fun j hj1 hj2 => ?_⟩
        rcases Nat.lt_succ_iff_lt_or_eq.mp hj2 with hlt | rfl
        · exact h3 j hj1 hlt
        · exact hf

/-- C15: `closest_preceding_node id` is the finger of highest index that is present,
differs from `self` by id, and has its id in `(self.id, id]` without being `id`; it is
`self` when no finger qualifies.  So a result is `self` or a finger strictly inside
the arc from `self.id` to `id`. -/
theorem closest_preceding_node_spec (s : State) (id : Nat) :
    (∀ i, i < 4 →
      ((s.finger_table.entry i).ip ≠ "" ∧ (s.finger_table.entry i).id ≠ s.self.id ∧
        in_range (s.finger_table.entry i).id s.self.id id = true ∧
        (s.finger_table.entry i).id ≠ id) →
      (∀ j, i < j → j < 4 →
        ¬ ((s.finger_table.entry j).ip ≠ "" ∧ (s.finger_table.entry j).id ≠ s.self.id ∧
          in_range (s.finger_table.entry j).id s.self.id id = true ∧
          (s.finger_table.entry j).id ≠ id)) →
      closest_preceding_node s id = s.finger_table.entry i) ∧
    ((∀ i, i < 4 →
      ¬ ((s.finger_table.entry i).ip ≠ "" ∧ (s.finger_table.entry i).id ≠ s.self.id ∧
        in_range (s.finger_table.entry i).id s.self.id id = true ∧
        (s.finger_table.entry i).id ≠ id)) →
      closest_preceding_node s id = s.self) ∧
    (closest_preceding_node s id = s.self ∨
      ∃ i, i < 4 ∧ closest_preceding_node s id = s.finger_table.entry i ∧
        (s.finger_table.entry i).ip ≠ "" ∧ (s.finger_table.entry i).id ≠ s.self.id ∧
        in_range (s.finger_table.entry i).id s.self.id id = true ∧
        (s.finger_table.entry i).id ≠ id) := by
  have hfalse : ∀ f : Node, precedes s id f = false ↔
      ¬ (f.ip ≠ "" ∧ f.id ≠ s.self.id ∧ in_range f.id s.self.id id = true ∧ f.id ≠ id) := by
    intro f
    rw [← precedes_iff, Bool.not_eq_true]
  unfold closest_preceding_node
  refine ⟨?_, ?_, ?_⟩
  · intro i hi hq hrest
    rcases closest_preceding_scan_spec s id 4 with ⟨-, h2⟩ | ⟨i2, hi2, h1, h2, h3⟩
    · exact absurd hq ((hfalse _).mp (h2 i hi))
    · rcases Nat.lt_trichotomy i i2 with hlt | heq | hgt
      · exact absurd ((precedes_iff s id _).mp h2) (hrest i2 hlt hi2)
      · rw [heq]; exact h1
      · exact absurd hq ((hfalse _).mp (h3 i hgt hi))
  · intro hnone
    rcases closest_preceding_scan_spec s id 4 with ⟨h1, -⟩ | ⟨i2, hi2, -, h2, -⟩
    · exact h1
    · exact absurd ((precedes_iff s id _).mp h2) (hnone i2 hi2)
  · rcases closest_preceding_scan_spec s id 4 with ⟨h1, -⟩ | ⟨i2, hi2, h1, h2, -⟩
    · exact Or.inl h1
    · exact Or.inr ⟨i2, hi2, h1, (precedes_iff s id _).mp h2⟩

/-- Witness of C15: on node 10 of the ring {10, 20, 30} with fingers
`[20, 20, 20, 30]`, the closest node preceding 25 is finger 2, node 20. -/
theorem closest_preceding_node_spec_witness :
    closest_preceding_node ring10 25 = ring10.finger_table.entry 2 :=
  (closest_preceding_node_spec ring10 25).1 2 (by decide) (by decide)
    (fun j h1 h2 => by
      have hj : j = 3 := by omega
      subst hj
      decide)

/-! ### Finger fixer -/

theorem FingerTable.entry_put_same (ft : FingerTable) (i : Nat) (v : Node) (h : i < 4) :
    (ft.put i v).entry i = v := by
  obtain ⟨l, hl⟩ := ft
  have hi : i < l.length := by omega
  simp [FingerTable.put, FingerTable.entry, Mathlib.Vector.toList, List.getD_eq_getElem?_getD,
    List.getElem?_set, hi]

/-- The state an active `fix_fingers` call returns, by the outcome of its RPC. -/
theorem fix_fingers_active (s : State) (o : Oracle) (hj : s.joined = true)
    (hns : s.successor.id ≠ s.self.id) (hsk : 3 ≤ s.skip_count + 1) :
    (fix_fingers s).run o =
      match o 0 (.find_successor
          (dispatch_scan { s with skip_count := 0 }
            ((s.self.id + 2 ^ s.next_finger) % (2 ^ 32 - 1)) s.successor 4)
          ((s.self.id + 2 ^ s.next_finger) % (2 ^ 32 - 1))) with
      | some r =>
        { s with
          skip_count := 0
          finger_table :=
            if ((s.finger_table.entry s.next_finger).id != r.id) = true then
              s.finger_table.put s.next_finger r
            else s.finger_table
          next_finger := (s.next_finger + 1) % 4 }
      | none =>
        { s with
          skip_count := 0
          finger_table := s.finger_table.put s.next_finger s.successor
          next_finger := (s.next_finger + 1) % 4 } := by
  unfold fix_fingers Prog.run
  rw [if_neg (by simp [hj, hns]), if_neg (by omega)]
  simp only [finger_start]
  rw [Prog.runFrom_call]
  cases o 0 (.find_successor
    (dispatch_scan { s with skip_count := 0 }
      ((s.self.id + 2 ^ s.next_finger) % (2 ^ 32 - 1)) s.successor 4)
    ((s.self.id + 2 ^ s.next_finger) % (2 ^ 32 - 1))) <;> rfl

/-- C17: on a joined node whose successor is not itself, starting from
`skip_count = 0`, the first and the second `fix_fingers` call change nothing but the
counter, and the third, whatever the outcome of its RPC, changes no finger other than
`finger_table[next_finger]`, no other routing field, and moves `next_finger` to
`(next_finger + 1) mod 4`; a call never takes `next_finger` out of `[0, 4)`; on a
node that is its own successor `fix_fingers` changes nothing. -/
theorem fix_fingers_throttle (s : State) (o1 o2 o3 : Oracle) :
    (s.joined = true → s.successor.id ≠ s.self.id → s.skip_count = 0 →
      (fix_fingers s).run o1 = { s with skip_count := 1 } ∧
      (fix_fingers { s with skip_count := 1 }).run o2 = { s with skip_count := 2 } ∧
      ((fix_fingers { s with skip_count := 2 }).run o3).next_finger =
        (s.next_finger + 1) % 4 ∧
      (∀ i, i ≠ s.next_finger →
        ((fix_fingers { s with skip_count := 2 }).run o3).finger_table.entry i =
          s.finger_table.entry i) ∧
      ((fix_fingers { s with skip_count := 2 }).run o3).self = s.self ∧
      ((fix_fingers { s with skip_count := 2 }).run o3).successor = s.successor ∧
      ((fix_fingers { s with skip_count := 2 }).run o3).predecessor = s.predecessor ∧
      ((fix_fingers { s with skip_count := 2 }).run o3).successor_list = s.successor_list ∧
      ((fix_fingers { s with skip_count := 2 }).run o3).joined = s.joined ∧
      ((fix_fingers { s with skip_count := 2 }).run o3).skip_count = 0) ∧
    (s.next_finger < 4 → ((fix_fingers s).run o1).next_finger < 4) ∧
    (s.successor.id = s.self.id → fix_fingers s = Prog.ret s) := by
  refine ⟨?_, ?_, ?_⟩
  · intro hj hns hsk
    refine ⟨?_, ?_, ?_⟩
    · simp [fix_fingers, hj, hns, hsk, Prog.run, Prog.runFrom]
    · simp [fix_fingers, hj, hns, Prog.run, Prog.runFrom]
    · rw [fix_fingers_active { s with skip_count := 2 } o3 hj hns (by simp)]
      simp only []
      cases o3 0 _ with
      | none =>
        refine ⟨rfl, fun i hi => ?_, rfl, rfl, rfl, rfl, rfl, rfl⟩
        exact FingerTable.entry_put_ne _ _ _ _ (fun e => hi e.symm)
      | some r =>
        refine ⟨rfl, fun i hi => ?_, rfl, rfl, rfl, rfl, rfl, rfl⟩
        simp only []
        split
        · exact FingerTable.entry_put_ne _ _ _ _ (fun e => hi e.symm)
        · rfl
  · intro hlt
    have key : (fix_fingers s).All fun t => t.next_finger < 4 := by
      unfold fix_fingers
      refine Prog.All.ite (fun _ => hlt) (fun _ => ?_)
      refine Prog.All.ite (fun _ => hlt) (fun _ => ?_)
      intro reply
      cases reply with
      | none => exact Nat.mod_lt _ (by decide)
      | some _ => exact Nat.mod_lt _ (by decide)
    exact Prog.All.runFrom o1 _ 0 key
  · intro hsolo
    simp [fix_fingers, hsolo]

/-- Witness of C17: node 10 of the ring {10, 20, 30} with its counter at 0; the
third call is answered with node 30. -/
theorem fix_fingers_throttle_witness :
    (fix_fingers { ring10 with skip_count := 0 }).run answer30 =
      { ring10 with skip_count := 1 } ∧
    ((fix_fingers ring10).run answer30).next_finger = 1 ∧
    ((fix_fingers ring10).run answer30).next_finger < 4 ∧
    fix_fingers (create ring10) = Prog.ret (create ring10) :=
  ⟨((fix_fingers_throttle { ring10 with skip_count := 0 } answer30 answer30 answer30).1
      rfl (by decide) rfl).1,
    ((fix_fingers_throttle { ring10 with skip_count := 0 } answer30 answer30 answer30).1
      rfl (by decide) rfl).2.2.1,
    (fix_fingers_throttle ring10 answer30 answer30 answer30).2.1 (by decide),
    (fix_fingers_throttle (create ring10) answer30 answer30 answer30).2.2 rfl⟩

/-- C18: in an active `fix_fingers` call with cursor `c = next_finger` and target
`start = (self.id + 2^c) mod (2^32 - 1)`, a reply `r` to `find_successor(start)`
leaves `finger_table[c]` equal to `r` as NodeRefs are compared, by id (the entry is
`r` itself when its id was not `r.id`, and is kept when it already had that id); a
failed call leaves `finger_table[c] = successor`. -/
theorem fix_fingers_refresh (s : State) (o : Oracle) (hj : s.joined = true)
    (hns : s.successor.id ≠ s.self.id) (hsk : 3 ≤ s.skip_count + 1)
    (hc : s.next_finger < 4) :
    (∀ r, o 0 (.find_successor
          (dispatch_scan { s with skip_count := 0 }
            ((s.self.id + 2 ^ s.next_finger) % (2 ^ 32 - 1)) s.successor 4)
          ((s.self.id + 2 ^ s.next_finger) % (2 ^ 32 - 1))) = some r →
      (((fix_fingers s).run o).finger_table.entry s.next_finger).same r = true ∧
      ((s.finger_table.entry s.next_finger).id ≠ r.id →
        ((fix_fingers s).run o).finger_table.entry s.next_finger = r) ∧
      ((s.finger_table.entry s.next_finger).id = r.id →
        ((fix_fingers s).run o).finger_table.entry s.next_finger =
          s.finger_table.entry s.next_finger)) ∧
    (o 0 (.find_successor
          (dispatch_scan { s with skip_count := 0 }
            ((s.self.id + 2 ^ s.next_finger) % (2 ^ 32 - 1)) s.successor 4)
          ((s.self.id + 2 ^ s.next_finger) % (2 ^ 32 - 1))) = none →
      ((fix_fingers s).run o).finger_table.entry s.next_finger = s.successor) := by
  have hrun := fix_fingers_active s o hj hns hsk
  constructor
  · intro r hr
    rw [hrun, hr]
    simp only []
    by_cases hid : (s.finger_table.entry s.next_finger).id = r.id
    · have hb : ¬ ((s.finger_table.entry s.next_finger).id != r.id) = true := by simpa using hid
      rw [if_neg hb]
      exact ⟨by simpa [Node.same] using hid, fun h => absurd hid h, fun _ => rfl⟩
    · have hb : ((s.finger_table.entry s.next_finger).id != r.id) = true := by simpa using hid
      rw [if_pos hb, FingerTable.entry_put_same _ _ _ hc]
      exact ⟨by simp [Node.same], fun _ => rfl, fun h => absurd h hid⟩
  · intro hr
    rw [hrun, hr]
    exact FingerTable.entry_put_same _ _ _ hc

/-- Witness of C18: node 10 of the ring {10, 20, 30}, cursor 0, target 11; the reply
is node 30, or the call fails. -/
theorem fix_fingers_refresh_witness :
    (((fix_fingers ring10).run answer30).finger_table.entry 0).same node30 = true ∧
    ((fix_fingers ring10).run answer30).finger_table.entry 0 = node30 ∧
    ((fix_fingers ring10).run unreachable).finger_table.entry 0 = node20 :=
  ⟨((fix_fingers_refresh ring10 answer30 rfl (by decide) (by decide) (by decide)).1
      node30 rfl).1,
    ((fix_fingers_refresh ring10 answer30 rfl (by decide) (by decide) (by decide)).1
      node30 rfl).2.1 (by decide),
    (fix_fingers_refresh ring10 unreachable rfl (by decide) (by decide) (by decide)).2 rfl⟩

/-! ### Successor list, reply by reply -/

theorem Prog.callsFrom_bind {α β : Type} (f : α → Prog β) (o : Oracle) :
    ∀ (p : Prog α) (n : Nat),
      (p.bind f).callsFrom o n =
        p.callsFrom o n + (f (p.runFrom o n)).callsFrom o (n + p.callsFrom o n)
  | .ret _, _ => by simp [Prog.bind, Prog.callsFrom, Prog.runFrom]
  | .call r k, n => by
    simp only [Prog.bind, Prog.runFrom, Prog.callsFrom]
    rw [Prog.callsFrom_bind f o (k (o n r)) (n + 1)]
    have e : n + 1 + (k (o n r)).callsFrom o (n + 1) =
        n + ((k (o n r)).callsFrom o (n + 1) + 1) := by omega
    rw [e]
    omega

theorem successor_chain_run (s : State) (o : Oracle) :
    ∀ (n j : Nat) (current : Node) (acc : List Node),
      (successor_chain s n current acc).runFrom o j = acc ++ reply_chain s o n j current ∧
      (successor_chain s n current acc).callsFrom o j ≤ n
  | 0, _, _, acc => by simp [successor_chain, reply_chain, Prog.runFrom, Prog.callsFrom]
  | n + 1, j, current, acc => by
    unfold successor_chain reply_chain
    rw [Prog.runFrom_call]
    simp only [Prog.callsFrom]
    cases o j (.get_successor current) with
    | none => simp [Prog.runFrom, Prog.callsFrom]
    | some c =>
      by_cases hc : c.id = s.successor.id ∨ c.id = s.self.id
      · have hb : (c.id == s.successor.id || c.id == s.self.id) = true := by simpa using hc
        simp [hc, hb, Prog.runFrom, Prog.callsFrom]
      · have hb : ¬ (c.id == s.successor.id || c.id == s.self.id) = true := by simpa using hc
        simp only [hb, hc, if_false, Bool.false_eq_true]
        obtain ⟨h1, h2⟩ := successor_chain_run s o n (j + 1) c (acc ++ [c])
        rw [h1]
        exact ⟨by simp, by omega⟩

theorem reply_chain_post (s : State) (o : Oracle) :
    ∀ (n j : Nat) (current : Node),
      (reply_chain s o n j current).length ≤ n ∧
      ∀ x ∈ reply_chain s o n j current, x.id ≠ s.self.id ∧ x.id ≠ s.successor.id
  | 0, _, _ => by simp [reply_chain]
  | n + 1, j, current => by
    unfold reply_chain
    cases o j (.get_successor current) with
    | none => simp
    | some c =>
      by_cases hc : c.id = s.successor.id ∨ c.id = s.self.id
      · simp [hc]
      · obtain ⟨h1, h2⟩ := reply_chain_post s o n (j + 1) c
        simp only [hc, if_false]
        refine ⟨by simpa using h1, ?_⟩
        intro x hx
        rcases List.mem_cons.mp hx with rfl | hx
        · exact ⟨fun e => hc (Or.inr e), fun e => hc (Or.inl e)⟩
        · exact h2 x hx

/-- C19: `update_successor_list` issues at most 4 calls and returns the state with
`successor_list` set to `successor` followed by the chain of `get_successor` replies,
cut at the first failed call, at the first reply carrying the id of `successor` or of
`self`, and after 4 replies.  The list has 1 to 5 entries, starts with `successor`,
and none of its later entries has the id of `self` or of `successor`; no other field
changes. -/
theorem update_successor_list_chain (s : State) (o : Oracle) :
    (update_successor_list s).run o =
      { s with successor_list := s.successor :: reply_chain s o 4 0 s.successor } ∧
    (update_successor_list s).callsFrom o 0 ≤ 4 ∧
    1 ≤ ((update_successor_list s).run o).successor_list.length ∧
    ((update_successor_list s).run o).successor_list.length ≤ 5 ∧
    ((update_successor_list s).run o).successor_list.head? = some s.successor ∧
    ∀ x ∈ ((update_successor_list s).run o).successor_list.tail,
      x.id ≠ s.self.id ∧ x.id ≠ s.successor.id := by
  obtain ⟨hrun, hcalls⟩ := successor_chain_run s o 4 0 s.successor [s.successor]
  obtain ⟨hlen, hids⟩ := reply_chain_post s o 4 0 s.successor
  have key : (update_successor_list s).run o =
      { s with successor_list := s.successor :: reply_chain s o 4 0 s.successor } := by
    unfold update_successor_list Prog.run
    rw [Prog.runFrom_bind]
    show State.mk _ _ _ _ _ _ _ _ _ = _
    rw [show SUCCESSOR_LIST_SIZE - 1 = 4 from rfl, hrun]
    rfl
  refine ⟨key, ?_, ?_⟩
  · unfold update_successor_list
    rw [Prog.callsFrom_bind]
    simpa [Prog.callsFrom] using hcalls
  · rw [key]
    refine ⟨by simp, ?_, rfl, hids⟩
    simp only [List.length_cons]
    omega

/-! ### Stabilize with every call answered -/

theorem Net.serve_ret (net : Net) (fuel : Nat) (r : Node) :
    net.serve fuel (.ret r) = some r := by
  cases fuel <;> rfl

theorem Net.node_spec (net : Net) (F : State) (hF : F ∈ net) :
    ∃ M, net.node F.self = some M ∧ M ∈ net ∧ M.self = F.self := by
  unfold Net.node
  have h : (net.find? fun M => M.self == F.self).isSome = true :=
    List.find?_isSome.mpr ⟨F, hF, by simp⟩
  obtain ⟨M, hM⟩ := Option.isSome_iff_exists.mp h
  exact ⟨M, hM, List.mem_of_find?_eq_some hM, by simpa using List.find?_some hM⟩

theorem precedes_eq_between (s : State) (id : Nat) (f : Node) :
    precedes s id f = (f.ip != "" && f.id != s.self.id && between s.self.id id f.id) :=
  rfl

theorem between_shrink (a k n x : Nat) (h1 : between a k n = true)
    (h2 : between n k x = true) : between a k x = true := by
  unfold between at *
  split_ifs at h1 h2 ⊢ <;>
    simp only [Bool.and_eq_true, Bool.or_eq_true, decide_eq_true_eq] at h1 h2 ⊢ <;> omega

theorem between_self (n k : Nat) : between n k n = false := by
  unfold between
  by_cases hn : n < k <;> simp [hn]

theorem between_same (a x : Nat) (h : between a a x = false) : x = a := by
  unfold between at h
  simp at h
  omega

theorem between_successor (a b k : Nat) (hab : a ≠ b) (h : in_range k a b = false) :
    between a k b = true := by
  unfold in_range at h
  unfold between
  by_cases h1 : a < b <;> by_cases h2 : a < k <;>
    simp [hab, h1, h2] at h ⊢ <;> omega

theorem in_range_previous (p n s k : Nat) (_hns : n ≠ s) (h1 : between p s n = false)
    (h2 : between n s p = false) (h3 : in_range k n s = true) : in_range k p s = true := by
  have hpn : p = n := by
    unfold between at h1 h2
    by_cases e1 : p < s <;> by_cases e2 : n < s <;> simp [e1, e2] at h1 h2 <;> omega
  rw [hpn]
  exact h3

theorem countP_lt_of_imp {α : Type} (p q : α → Bool) :
    ∀ (l : List α) (y : α), y ∈ l → q y = true → p y = false →
      (∀ x ∈ l, p x = true → q x = true) → l.countP p < l.countP q
  | [], _, hy, _, _, _ => by simp at hy
  | a :: rest, y, hy, hq, hp, himp => by
    have hrest : ∀ x ∈ rest, p x = true → q x = true :=
      fun x hx => himp x (List.mem_cons_of_mem _ hx)
    have hle : rest.countP p ≤ rest.countP q := List.countP_mono_left hrest
    rw [List.countP_cons, List.countP_cons]
    rcases List.mem_cons.mp hy with rfl | hy2
    · simp only [hq, hp, if_true, Bool.false_eq_true, if_false]
      omega
    · have ih := countP_lt_of_imp p q rest y hy2 hq hp hrest
      by_cases hpa : p a = true
      · have hqa := himp a (List.mem_cons_self _ _) hpa
        simp only [hpa, hqa, if_true]
        omega
      · have hpf : p a = false := by simpa using hpa
        rw [hpf]
        simp only [Bool.false_eq_true, if_false, Nat.add_zero]
        exact Nat.lt_of_lt_of_le ih (Nat.le_add_right _ _)

/-- The four ways `find_successor` ends: `self` (steps 1 and 2), `successor` by the
arc test (step 3), `successor` because no finger precedes (step 4), or one forwarded
call (step 5). -/
theorem find_successor_cases (s : State) (id : Nat) :
    (find_successor s id = .ret s.self ∧
      (s.successor.id = s.self.id ∨ in_range id s.predecessor.id s.self.id = true)) ∨
    (find_successor s id = .ret s.successor ∧ s.successor.id ≠ s.self.id ∧
      in_range id s.self.id s.successor.id = true) ∨
    (find_successor s id = .ret s.successor ∧ s.successor.id ≠ s.self.id ∧
      in_range id s.self.id s.successor.id = false ∧
      (closest_preceding_node s id).id = s.self.id) ∨
    (find_successor s id =
        .call (.find_successor (closest_preceding_node s id) id) (fun
          | some r => .ret r
          | none => .ret s.successor) ∧
      s.successor.id ≠ s.self.id ∧ in_range id s.self.id s.successor.id = false ∧
      (closest_preceding_node s id).id ≠ s.self.id) := by
  unfold find_successor
  by_cases h1 : s.successor.id = s.self.id
  · left
    have c1 : (s.successor.id == s.self.id) = true := by simpa using h1
    rw [if_pos c1]
    exact ⟨rfl, Or.inl h1⟩
  · have c1 : ¬ (s.successor.id == s.self.id) = true := by simpa using h1
    rw [if_neg c1]
    by_cases h2 : (s.predecessor.ip != "" && in_range id s.predecessor.id s.self.id) = true
    · left
      rw [if_pos h2]
      simp only [Bool.and_eq_true] at h2
      exact ⟨rfl, Or.inr h2.2⟩
    · rw [if_neg h2]
      by_cases h3 : in_range id s.self.id s.successor.id = true
      · right; left
        rw [if_pos h3]
        exact ⟨rfl, h1, h3⟩
      · rw [if_neg h3]
        have h3f : in_range id s.self.id s.successor.id = false := by simpa using h3
        simp only []
        by_cases h4 : (closest_preceding_node s id).id = s.self.id
        · right; right; left
          have c4 : ((closest_preceding_node s id).id == s.self.id) = true := by simpa using h4
          rw [if_pos c4]
          exact ⟨rfl, h1, h3f, h4⟩
        · right; right; right
          have c4 : ¬ ((closest_preceding_node s id).id == s.self.id) = true := by
            simpa using h4
          rw [if_neg c4]
          exact ⟨rfl, h1, h3f, h4⟩

/-- One hop of a lookup on a ring: the node answers with the member responsible for
`k`, or forwards to a member with fewer members between itself and `k`. -/
theorem ring_lookup_step (ring : Net) (h : RingOK ring) (k : Nat) (N : State)
    (hN : N ∈ ring) :
    (∃ R ∈ ring, find_successor N k = .ret R.self ∧
      in_range k R.predecessor.id R.self.id = true) ∨
    (∃ M ∈ ring,
      find_successor N k =
        .call (.find_successor M.self k) (fun
          | some r => .ret r
          | none => .ret N.successor) ∧
      ring.node M.self = some M ∧
      ring.countP (fun X => between M.self.id k X.self.id) <
        ring.countP (fun X => between N.self.id k X.self.id)) := by
  obtain ⟨hpres, -, hsucc, hpred, hfz, hfing⟩ := h
  obtain ⟨S, hS, hNS, hSnone⟩ := hsucc N hN
  obtain ⟨P, hP, hNP, -⟩ := hpred N hN
  have hscan := closest_preceding_scan_spec N k 4
  rcases find_successor_cases N k with ⟨e, hc⟩ | ⟨e, h1, h3⟩ | ⟨-, h1, h3, h4⟩ | ⟨e, h1, h3, h4⟩
  · left
    refine ⟨N, hN, e, ?_⟩
    rcases hc with hc | hc
    · have hSN : S.self.id = N.self.id := by rw [← hNS]; exact hc
      have hPN : P.self.id = N.self.id := by
        have := hSnone P hP
        rw [hSN] at this
        exact between_same _ _ this
      rw [hNP, hPN]
      simp [in_range]
    · exact hc
  · left
    refine ⟨S, hS, by rw [e, hNS], ?_⟩
    obtain ⟨Q, hQ, hSQ, hQnone⟩ := hpred S hS
    rw [hNS] at h1 h3
    rw [hSQ]
    exact in_range_previous Q.self.id N.self.id S.self.id k (fun e => h1 e.symm)
      (hQnone N hN) (hSnone Q hQ) h3
  · exfalso
    have hp0 : precedes N k N.successor = true := by
      rw [precedes_eq_between]
      have hip : N.successor.ip ≠ "" := by rw [hNS]; exact hpres S hS
      have hb := between_successor N.self.id N.successor.id k (fun e => h1 e.symm) h3
      simp [hip, h1, hb]
    rcases hscan with ⟨-, hnone⟩ | ⟨i, -, hi1, hi2, -⟩
    · have := hnone 0 (by decide)
      rw [hfz N hN, hp0] at this
      exact Bool.noConfusion this
    · have hne := ((precedes_iff N k _).mp hi2).2.1
      unfold closest_preceding_node at h4
      rw [hi1] at h4
      exact hne h4
  · right
    rcases hscan with ⟨hself, -⟩ | ⟨i, hi, hi1, hi2, -⟩
    · exfalso
      unfold closest_preceding_node at h4
      rw [hself] at h4
      exact h4 rfl
    · obtain ⟨F, hF, hiF⟩ := hfing N hN i hi
      obtain ⟨M, hnode, hM, hMF⟩ := Net.node_spec ring F hF
      have hcpn : closest_preceding_node N k = M.self := by
        unfold closest_preceding_node
        rw [hi1, hiF, hMF]
      have hbetween : between N.self.id k M.self.id = true := by
        rw [precedes_eq_between, hiF, ← hMF] at hi2
        simp only [Bool.and_eq_true] at hi2
        exact hi2.2
      refine ⟨M, hM, by rw [e, hcpn], by rw [hMF]; exact hnode, ?_⟩
      exact countP_lt_of_imp _ _ ring M hM hbetween (between_self _ _)
        (fun X _ hX => between_shrink _ _ _ _ hbetween hX)

/-- A lookup on a ring returns within as many hops as there are members strictly
between the asked node and `k`. -/
theorem ring_lookup_bounded (ring : Net) (h : RingOK ring) (k : Nat) :
    ∀ (fuel : Nat) (N : State), N ∈ ring →
      ring.countP (fun X => between N.self.id k X.self.id) ≤ fuel →
      ∃ R ∈ ring, ring.serve fuel (find_successor N k) = some R.self ∧
        in_range k R.predecessor.id R.self.id = true
  | 0, N, hN, hle => by
    rcases ring_lookup_step ring h k N hN with ⟨R, hR, e, hr⟩ | ⟨M, -, -, -, hlt⟩
    · exact ⟨R, hR, by rw [e, Net.serve_ret], hr⟩
    · omega
  | fuel + 1, N, hN, hle => by
    rcases ring_lookup_step ring h k N hN with ⟨R, hR, e, hr⟩ | ⟨M, hM, e, hnode, hlt⟩
    · exact ⟨R, hR, by rw [e, Net.serve_ret], hr⟩
    · obtain ⟨R, hR, hserve, hr⟩ := ring_lookup_bounded ring h k fuel M hM (by omega)
      refine ⟨R, hR, ?_, hr⟩
      rw [e]
      simp only [Net.serve, hnode, hserve]
      exact Net.serve_ret _ _ _

/-- C13: in a ring of live nodes with pairwise distinct ids, where successor and
predecessor of every node are the members next after and before it,
`finger_table[0]` is the successor and fingers are members, a lookup of `k` started
on any member `N`, every RPC being answered by the target's own `find_successor`,
returns within `ring.length` forwards, and returns a member `R` with `k` in
`(R.predecessor.id, R.self.id]`. -/
theorem ring_lookup_correct (ring : Net) (h : RingOK ring) (N : State) (hN : N ∈ ring)
    (k : Nat) :
    ∃ R ∈ ring, ring.serve ring.length (find_successor N k) = some R.self ∧
      in_range k R.predecessor.id R.self.id = true :=
  ring_lookup_bounded ring h k ring.length N hN (List.countP_le_length _)

/-- Witness of C13 (scenario S3): in the ring {10, 20, 30} the lookup of 5 returns
node 10 from every node. -/
theorem ring_lookup_correct_witness :
    (∃ R ∈ ring123, ring123.serve ring123.length (find_successor member30 5) = some R.self ∧
      in_range 5 R.predecessor.id R.self.id = true) ∧
    ring123.serve 3 (find_successor ring10 5) = some node10 ∧
    ring123.serve 3 (find_successor member20 5) = some node10 ∧
    ring123.serve 3 (find_successor member30 5) = some node10 ∧
    in_range 5 ring10.predecessor.id ring10.self.id = true :=
  ⟨ring_lookup_correct ring123 (by decide) member30 (by decide) 5,
    by decide, by decide, by decide, by decide⟩

/-! ### Two nodes -/

theorem in_range_from_start (x e : Nat) (h : x ≠ e) : in_range x x e = false := by
  unfold in_range
  by_cases h1 : x < e
  · simp [h, h1]
  · simp [h, h1]
    omega

theorem create_then_join_eq (A B : Node) (hid : A.id ≠ B.id) :
    create_then_join A B = [founder A B, joiner A B 0] := by
  have hAB : A ≠ B := fun e => hid (by rw [e])
  have hBA : B ≠ A := fun e => hAB e.symm
  simp [create_then_join, two_nodes, Net.act, Net.node, Net.store, Net.deliver, Net.answers,
    Net.serve, Prog.run, Prog.runFrom, Prog.traceFrom, Prog.bind, hAB, hBA, fresh, create,
    join, join_fingers, update_successor_list, successor_chain, find_successor,
    SUCCESSOR_LIST_SIZE, become_solo, notify, get_successor, get_predecessor, founder, joiner]
  exact ⟨rfl, rfl⟩

theorem joiner_stabilizes_early (A B : Node) (hid : A.id ≠ B.id) (hB : B.ip ≠ "")
    (c : Nat) (hc : c + 1 < 3) :
    Net.act [founder A B, joiner A B c] B stabilize = [founder A B, joiner A B (c + 1)] := by
  have hAB : A ≠ B := fun e => hid (by rw [e])
  have hBA : B ≠ A := fun e => hAB e.symm
  have hidb : ¬ B.id = A.id := fun e => hid e.symm
  have hr : in_range B.id B.id A.id = false := in_range_from_start _ _ hidb
  have hc2 : ¬ 2 ≤ c := by omega
  simp [Net.act, Net.node, Net.store, Net.deliver, Net.answers,
    Prog.run, Prog.runFrom, Prog.traceFrom, Prog.bind, hAB, hBA, hid, hidb, hB, hr, hc2,
    fresh, create, stabilize, adopt, periodic_refresh, notify, get_successor, get_predecessor,
    founder, joiner]

theorem founder_adopts (A B : Node) (hid : A.id ≠ B.id) (hB : B.ip ≠ "") (c : Nat) :
    Net.act [founder A B, joiner A B c] A stabilize =
      [founder_settled A B 1, joiner_settled A B c] := by
  have hAB : A ≠ B := fun e => hid (by rw [e])
  have hBA : B ≠ A := fun e => hAB e.symm
  have hidb : ¬ B.id = A.id := fun e => hid e.symm
  have hd : (default : Node).ip = "" := rfl
  simp [Net.act, Net.node, Net.store, Net.deliver, Net.answers,
    Prog.run, Prog.runFrom, Prog.traceFrom, Prog.bind, hAB, hBA, hid, hidb, hB, hd,
    fresh, create, stabilize, adopt, periodic_refresh, notify, get_successor, get_predecessor,
    update_successor_list, successor_chain, SUCCESSOR_LIST_SIZE,
    founder, joiner, founder_settled, joiner_settled]

theorem founder_stabilizes_settled (A B : Node) (hid : A.id ≠ B.id)
    (ca cb : Nat) (hc : ca + 1 < 3) :
    Net.act [founder_settled A B ca, joiner_settled A B cb] A stabilize =
      [founder_settled A B (ca + 1), joiner_settled A B cb] := by
  have hAB : A ≠ B := fun e => hid (by rw [e])
  have hBA : B ≠ A := fun e => hAB e.symm
  have hidb : ¬ B.id = A.id := fun e => hid e.symm
  have hr : in_range A.id A.id B.id = false := in_range_from_start _ _ hid
  have hc2 : ¬ 2 ≤ ca := by omega
  by_cases hA : A.ip = ""
  · simp [Net.act, Net.node, Net.store, Net.deliver, Net.answers,
      Prog.run, Prog.runFrom, Prog.traceFrom, Prog.bind, hAB, hBA, hid, hidb, hA, hr, hc2,
      fresh, create, stabilize, adopt, periodic_refresh, notify, get_successor,
      get_predecessor, founder, joiner, founder_settled, joiner_settled]
  · simp [Net.act, Net.node, Net.store, Net.deliver, Net.answers,
      Prog.run, Prog.runFrom, Prog.traceFrom, Prog.bind, hAB, hBA, hid, hidb, hA, hr, hc2,
      fresh, create, stabilize, adopt, periodic_refresh, notify, get_successor,
      get_predecessor, founder, joiner, founder_settled, joiner_settled]

theorem joiner_stabilizes_settled (A B : Node) (hid : A.id ≠ B.id) (hB : B.ip ≠ "")
    (ca cb : Nat) (hc : cb + 1 < 3) :
    Net.act [founder_settled A B ca, joiner_settled A B cb] B stabilize =
      [founder_settled A B ca, joiner_settled A B (cb + 1)] := by
  have hAB : A ≠ B := fun e => hid (by rw [e])
  have hBA : B ≠ A := fun e => hAB e.symm
  have hidb : ¬ B.id = A.id := fun e => hid e.symm
  have hr : in_range B.id B.id A.id = false := in_range_from_start _ _ hidb
  have hc2 : ¬ 2 ≤ cb := by omega
  simp [Net.act, Net.node, Net.store, Net.deliver, Net.answers,
    Prog.run, Prog.runFrom, Prog.traceFrom, Prog.bind, hAB, hBA, hid, hidb, hB, hr, hc2,
    fresh, create, stabilize, adopt, periodic_refresh, notify, get_successor, get_predecessor,
    founder, joiner, founder_settled, joiner_settled]

theorem rounds_settled (A B : Node) (hid : A.id ≠ B.id) (hB : B.ip ≠ "") :
    ∀ (sched : List Bool) (ca cb : Nat),
      ca + sched.count true ≤ 2 → cb + sched.count false ≤ 2 →
      stabilize_rounds A B sched [founder_settled A B ca, joiner_settled A B cb] =
        [founder_settled A B (ca + sched.count true),
          joiner_settled A B (cb + sched.count false)]
  | [], _, _, _, _ => rfl
  | true :: rest, ca, cb, h1, h2 => by
    simp only [List.count_cons_self, List.count_cons_of_ne (by decide : true ≠ false),
      List.count_cons_of_ne (by decide : false ≠ true)] at h1 h2
    unfold stabilize_rounds
    rw [founder_stabilizes_settled A B hid ca cb (by omega),
      rounds_settled A B hid hB rest (ca + 1) cb (by omega) h2]
    simp only [List.count_cons_self, List.count_cons_of_ne (by decide : true ≠ false),
      List.count_cons_of_ne (by decide : false ≠ true)]
    rw [show ca + 1 + List.count true rest = ca + (List.count true rest + 1) by omega]
  | false :: rest, ca, cb, h1, h2 => by
    simp only [List.count_cons_self, List.count_cons_of_ne (by decide : false ≠ true),
      List.count_cons_of_ne (by decide : true ≠ false)] at h1 h2
    unfold stabilize_rounds
    rw [joiner_stabilizes_settled A B hid hB ca cb (by omega),
      rounds_settled A B hid hB rest ca (cb + 1) h1 (by omega)]
    simp only [List.count_cons_self, List.count_cons_of_ne (by decide : false ≠ true),
      List.count_cons_of_ne (by decide : true ≠ false)]
    rw [show cb + 1 + List.count false rest = cb + (List.count false rest + 1) by omega]

theorem rounds_early (A B : Node) (hid : A.id ≠ B.id) (hB : B.ip ≠ "") :
    ∀ (sched : List Bool) (cb : Nat),
      1 ≤ sched.count true → sched.count true ≤ 2 → cb + sched.count false ≤ 2 →
      stabilize_rounds A B sched [founder A B, joiner A B cb] =
        [founder_settled A B (sched.count true),
          joiner_settled A B (cb + sched.count false)]
  | [], _, h0, _, _ => by simp at h0
  | true :: rest, cb, _, h1, h2 => by
    simp only [List.count_cons_self, List.count_cons_of_ne (by decide : true ≠ false),
      List.count_cons_of_ne (by decide : false ≠ true)] at h1 h2
    unfold stabilize_rounds
    rw [founder_adopts A B hid hB cb,
      rounds_settled A B hid hB rest 1 cb (by omega) h2]
    simp only [List.count_cons_self, List.count_cons_of_ne (by decide : true ≠ false),
      List.count_cons_of_ne (by decide : false ≠ true)]
    rw [show 1 + List.count true rest = List.count true rest + 1 by omega]
  | false :: rest, cb, h0, h1, h2 => by
    simp only [List.count_cons_self, List.count_cons_of_ne (by decide : false ≠ true),
      List.count_cons_of_ne (by decide : true ≠ false)]
      at h0 h1 h2
    unfold stabilize_rounds
    rw [joiner_stabilizes_early A B hid hB cb (by omega),
      rounds_early A B hid hB rest (cb + 1) h0 h1 (by omega)]
    simp only [List.count_cons_self, List.count_cons_of_ne (by decide : false ≠ true),
      List.count_cons_of_ne (by decide : true ≠ false)]
    rw [show cb + 1 + List.count false rest = cb + (List.count false rest + 1) by omega]

/-- C14: two nodes `A` and `B` with distinct ids, `B` with an address, and reliable
delivery.  After `A` runs `create`, `B` runs `join(A)` and each of them runs
`stabilize` twice, in any order, `A.successor = B`, `B.successor = A`,
`A.predecessor = B` and `B.predecessor = A`. -/
theorem two_node_ring (A B : Node) (hid : A.id ≠ B.id) (hB : B.ip ≠ "")
    (sched : List Bool) (h1 : sched.count true = 2) (h2 : sched.count false = 2) :
    ∃ a b, stabilize_rounds A B sched (create_then_join A B) = [a, b] ∧
      a.self = A ∧ b.self = B ∧
      a.successor = B ∧ b.successor = A ∧ a.predecessor = B ∧ b.predecessor = A := by
  rw [create_then_join_eq A B hid,
    rounds_early A B hid hB sched 0 (by omega) (by omega) (by omega)]
  exact ⟨_, _, rfl, rfl, rfl, rfl, rfl, rfl, rfl⟩

/-- Witness of C14 (scenario S2): A = node 10, B = node 20, the calls alternating. -/
theorem two_node_ring_witness :
    (∃ a b, stabilize_rounds node10 node20 [true, false, true, false]
        (create_then_join node10 node20) = [a, b] ∧
      a.self = node10 ∧ b.self = node20 ∧
      a.successor = node20 ∧ b.successor = node10 ∧
      a.predecessor = node20 ∧ b.predecessor = node10) ∧
    (stabilize_rounds node10 node20 [false, false, true, true]
        (create_then_join node10 node20)).map (fun s => (s.successor, s.predecessor)) =
      [(node20, node20), (node10, node10)] :=
  ⟨two_node_ring node10 node20 (by decide) (by decide) [true, false, true, false] rfl rfl,
    by decide⟩

end Chord
